import Mathlib

/-!
Verification of the pytest-review analyzer engine and scoring model.

This file gives a shallow embedding of the parts of the pytest-review source
that the specification claims talk about: a subset of the Python AST that the
analyzers traverse, the four tree-walking analyzers involved in the claims
(assertions, smells, isolation, complexity, patterns), and the scoring engine.
Numeric scores are modelled over the rationals.

Each definition mirrors the corresponding Python function; the claims are then
stated and settled as theorems at the end of the file.
-/

namespace PytestReview

/-- Severity levels for issues (analyzers/base.py, class Severity). -/
inductive Severity where
  | info
  | warning
  | error
deriving DecidableEq, Repr

/-- Python constant values appearing in the modelled AST subset
(booleans, integers, strings, None).  Floats are omitted from the subset. -/
inductive Const where
  | bool (b : Bool)
  | int (n : Int)
  | str (s : String)
  | none
deriving DecidableEq, Repr

/-- Python value equality between a constant and an integer, as used by
Python `in` membership tests (True == 1, False == 0). -/
def Const.pyEqInt : Const → Int → Bool
  | .bool b, m => (if b then (1 : Int) else 0) = m
  | .int n, m => n = m
  | .str _, _ => false
  | .none, _ => false

/-- Expression context: load or store (ast.Load / ast.Store). -/
inductive Ctx where
  | load
  | store
deriving DecidableEq, Repr

/-- Comparison operators (ast.cmpop subset). -/
inductive Cmpop where
  | eq
  | notEq
  | lt
  | ltE
  | gt
  | gtE
  | isCmp
  | isNotCmp
deriving DecidableEq, Repr

/-- Boolean operators (ast.boolop). -/
inductive Boolop where
  | andOp
  | orOp
deriving DecidableEq, Repr

/-- Unary operators (ast.unaryop subset). -/
inductive Unaryop where
  | notOp
  | uSub
deriving DecidableEq, Repr

mutual

/-- Python expression subset.  Each constructor carries the fields of the
corresponding ast node, in ast field order, plus the line number. -/
inductive Expr where
  | constant (value : Const) (lineno : Nat)
  | name (id : String) (lineno : Nat)
  | attribute (value : Expr) (attr : String) (ctx : Ctx) (lineno : Nat)
  | subscript (value : Expr) (slice : Expr) (ctx : Ctx) (lineno : Nat)
  | compare (left : Expr) (pairs : CmpPairs) (lineno : Nat)
  | boolOp (op : Boolop) (values : ExprList) (lineno : Nat)
  | unaryOp (op : Unaryop) (operand : Expr) (lineno : Nat)
  | call (func : Expr) (args : ExprList) (lineno : Nat)
  | ifExp (test : Expr) (body : Expr) (orelse : Expr) (lineno : Nat)
  | listComp (elt : Expr) (generators : CompList) (lineno : Nat)
  | setComp (elt : Expr) (generators : CompList) (lineno : Nat)
  | dictComp (key : Expr) (value : Expr) (generators : CompList) (lineno : Nat)
  | generatorExp (elt : Expr) (generators : CompList) (lineno : Nat)

/-- A list of expressions inside the mutual block. -/
inductive ExprList where
  | nil
  | cons (head : Expr) (tail : ExprList)

/-- The (ops, comparators) lists of an ast.Compare, zipped: Python's AST
always has the same number of operators and comparators. -/
inductive CmpPairs where
  | nil
  | cons (op : Cmpop) (cmp : Expr) (tail : CmpPairs)

/-- One `for ... in ... if ...` clause of a comprehension (ast.comprehension). -/
inductive Comprehension where
  | mk (target : Expr) (iter : Expr) (ifs : ExprList)

/-- A list of comprehension clauses. -/
inductive CompList where
  | nil
  | cons (head : Comprehension) (tail : CompList)

end

mutual

/-- Python statement subset.  Fields are in ast field order; the line number
is carried last. -/
inductive Stmt where
  | exprStmt (value : Expr) (lineno : Nat)
  | assign (targets : List Expr) (value : Expr) (lineno : Nat)
  | augAssign (target : Expr) (value : Expr) (lineno : Nat)
  | annAssign (target : Expr) (value : Option Expr) (lineno : Nat)
  | assertStmt (test : Expr) (msg : Option Expr) (lineno : Nat)
  | returnStmt (value : Option Expr) (lineno : Nat)
  | raiseStmt (exc : Option Expr) (lineno : Nat)
  | passStmt (lineno : Nat)
  | breakStmt (lineno : Nat)
  | continueStmt (lineno : Nat)
  | globalStmt (names : List String) (lineno : Nat)
  | importStmt (names : List String) (lineno : Nat)
  | importFrom (module : Option String) (names : List String) (lineno : Nat)
  | ifStmt (test : Expr) (body : StmtList) (orelse : StmtList) (lineno : Nat)
  | forStmt (target : Expr) (iter : Expr) (body : StmtList) (orelse : StmtList) (lineno : Nat)
  | whileStmt (test : Expr) (body : StmtList) (orelse : StmtList) (lineno : Nat)
  | withStmt (ctxExpr : Expr) (optionalVars : Option Expr) (body : StmtList) (lineno : Nat)
  | tryStmt (body : StmtList) (handlers : HandlerList) (orelse : StmtList)
      (finalBody : StmtList) (lineno : Nat)

/-- A list of statements inside the mutual block. -/
inductive StmtList where
  | nil
  | cons (head : Stmt) (tail : StmtList)

/-- An exception handler (ast.ExceptHandler). -/
inductive Handler where
  | mk (typ : Option Expr) (hname : Option String) (body : StmtList) (lineno : Nat)

/-- A list of exception handlers. -/
inductive HandlerList where
  | nil
  | cons (head : Handler) (tail : HandlerList)

end

/-- A test function definition (ast.FunctionDef): the node held by a
TestItemInfo.  Nested function definitions are outside the modelled subset. -/
structure FunctionDef where
  fname : String
  decorators : List Expr
  body : StmtList
  lineno : Nat

/-- Python repr of a string, as it appears inside ast.dump output:
single-quoted with backslash and quote escapes. -/
def pyStrRepr (s : String) : String :=
  "'" ++ String.join (s.data.map (fun c =>
    if c = '\\' then "\\\\"
    else if c = '\'' then "\\'"
    else String.singleton c)) ++ "'"

mutual

/-- Structural dump of an expression, mirroring ast.dump: a serialization of
the tree shape and constant values that omits line numbers. -/
def Expr.dump : Expr → String
  | .constant v _ => "Constant(value=" ++ Const.dumpConst v ++ ")"
  | .name id _ => "Name(id=" ++ pyStrRepr id ++ ")"
  | .attribute v attr ctx _ =>
      "Attribute(value=" ++ Expr.dump v ++ ", attr=" ++ pyStrRepr attr ++
        ", ctx=" ++ (match ctx with | .load => "Load()" | .store => "Store()") ++ ")"
  | .subscript v slice ctx _ =>
      "Subscript(value=" ++ Expr.dump v ++ ", slice=" ++ Expr.dump slice ++
        ", ctx=" ++ (match ctx with | .load => "Load()" | .store => "Store()") ++ ")"
  | .compare left pairs _ =>
      "Compare(left=" ++ Expr.dump left ++ ", " ++ CmpPairs.dumpPairs pairs ++ ")"
  | .boolOp op values _ =>
      "BoolOp(op=" ++ (match op with | .andOp => "And()" | .orOp => "Or()") ++
        ", values=[" ++ ExprList.dumpList values ++ "])"
  | .unaryOp op operand _ =>
      "UnaryOp(op=" ++ (match op with | .notOp => "Not()" | .uSub => "USub()") ++
        ", operand=" ++ Expr.dump operand ++ ")"
  | .call f args _ =>
      "Call(func=" ++ Expr.dump f ++ ", args=[" ++ ExprList.dumpList args ++ "])"
  | .ifExp t b e _ =>
      "IfExp(test=" ++ Expr.dump t ++ ", body=" ++ Expr.dump b ++
        ", orelse=" ++ Expr.dump e ++ ")"
  | .listComp elt gens _ =>
      "ListComp(elt=" ++ Expr.dump elt ++ ", generators=[" ++ CompList.dumpComps gens ++ "])"
  | .setComp elt gens _ =>
      "SetComp(elt=" ++ Expr.dump elt ++ ", generators=[" ++ CompList.dumpComps gens ++ "])"
  | .dictComp k v gens _ =>
      "DictComp(key=" ++ Expr.dump k ++ ", value=" ++ Expr.dump v ++
        ", generators=[" ++ CompList.dumpComps gens ++ "])"
  | .generatorExp elt gens _ =>
      "GeneratorExp(elt=" ++ Expr.dump elt ++ ", generators=[" ++
        CompList.dumpComps gens ++ "])"

/-- Dump of a constant value, mirroring repr of the Python value. -/
def Const.dumpConst : Const → String
  | .bool b => if b then "True" else "False"
  | .int n => toString n
  | .str s => pyStrRepr s
  | .none => "None"

/-- Dump of an expression list, comma separated. -/
def ExprList.dumpList : ExprList → String
  | .nil => ""
  | .cons e .nil => Expr.dump e
  | .cons e tl => Expr.dump e ++ ", " ++ ExprList.dumpList tl

/-- Dump of the ops/comparators part of a Compare node. -/
def CmpPairs.dumpPairs : CmpPairs → String
  | .nil => "ops=[], comparators=[]"
  | .cons op cmp tl =>
      "(" ++ (match op with
        | .eq => "Eq()"
        | .notEq => "NotEq()"
        | .lt => "Lt()"
        | .ltE => "LtE()"
        | .gt => "Gt()"
        | .gtE => "GtE()"
        | .isCmp => "Is()"
        | .isNotCmp => "IsNot()") ++ ", " ++ Expr.dump cmp ++ "); " ++
        CmpPairs.dumpPairs tl

/-- Dump of one comprehension clause. -/
def Comprehension.dumpComp : Comprehension → String
  | .mk target iter ifs =>
      "comprehension(target=" ++ Expr.dump target ++ ", iter=" ++ Expr.dump iter ++
        ", ifs=[" ++ ExprList.dumpList ifs ++ "])"

/-- Dump of a comprehension clause list. -/
def CompList.dumpComps : CompList → String
  | .nil => ""
  | .cons c .nil => Comprehension.dumpComp c
  | .cons c tl => Comprehension.dumpComp c ++ ", " ++ CompList.dumpComps tl

end

/-- Convert an ExprList to a plain list. -/
def ExprList.toList : ExprList → List Expr
  | .nil => []
  | .cons e tl => e :: ExprList.toList tl

/-- The comparator expressions of a Compare node, as a plain list. -/
def CmpPairs.comparators : CmpPairs → List Expr
  | .nil => []
  | .cons _ cmp tl => cmp :: CmpPairs.comparators tl

/-- The (operator, comparator) pairs of a Compare node, as a plain list. -/
def CmpPairs.toList : CmpPairs → List (Cmpop × Expr)
  | .nil => []
  | .cons op cmp tl => (op, cmp) :: CmpPairs.toList tl

/-- The line number of an expression node. -/
def Expr.line : Expr → Nat
  | .constant _ ln => ln
  | .name _ ln => ln
  | .attribute _ _ _ ln => ln
  | .subscript _ _ _ ln => ln
  | .compare _ _ ln => ln
  | .boolOp _ _ ln => ln
  | .unaryOp _ _ ln => ln
  | .call _ _ ln => ln
  | .ifExp _ _ _ ln => ln
  | .listComp _ _ ln => ln
  | .setComp _ _ ln => ln
  | .dictComp _ _ _ ln => ln
  | .generatorExp _ _ ln => ln

/-- A quality issue (analyzers/base.py, class Issue).  The model keeps the
fields that other subsystems key off programmatically (`rule`, `severity`)
plus the line; the free-text message, file path, test name and suggestion are
not modelled. -/
structure Issue where
  rule : String
  severity : Severity
  line : Nat
deriving DecidableEq, Repr

/-- The result of one analyzer run on one test (analyzers/base.py,
AnalyzerResult): the analyzer's name and its ordered issue list. -/
structure AnalyzerResult where
  analyzerName : String
  issues : List Issue
deriving DecidableEq, Repr

/-- Number of issues in a list carrying a given rule id. -/
def countRule (issues : List Issue) (r : String) : Nat :=
  (issues.filter (fun i => i.rule = r)).length

/-! ## Assertion Quality Analyzer (analyzers/assertions.py) -/

/-- State of AssertionVisitor: the collected assert statements, pytest
helper calls, and trivial assertions, each recorded by line number in
detection order. -/
structure AVState where
  assertions : List Nat
  pytestAssertions : List Nat
  trivialAssertions : List Nat
deriving DecidableEq, Repr

/-- AssertionVisitor._check_trivial: decides whether an assert condition is
recorded as trivial.  Mirrors the source exactly: a Constant is trivial
only when it is the literal True or False (the source's second
isinstance-Constant branch is unreachable because the first branch matches
every Constant), and a Compare is trivial when it has a single Eq operator
and the structural dumps of its two operands coincide. -/
def checkTrivial (test : Expr) : Bool :=
  match test with
  | .constant v _ => v = Const.bool true || v = Const.bool false
  | .compare left pairs _ =>
      match pairs with
      | .cons op cmp .nil => op = Cmpop.eq && (Expr.dump left = Expr.dump cmp)
      | _ => false
  | _ => false

/-- AssertionVisitor.visit_Call's pytest-helper test: the called function is
an attribute pytest.raises / pytest.warns / pytest.approx. -/
def isPytestHelper : Expr → Bool
  | .attribute (.name "pytest" _) attr _ _ =>
      attr = "raises" || attr = "warns" || attr = "approx"
  | _ => false

mutual

/-- AssertionVisitor traversal over an expression (generic_visit plus the
visit_Call override). -/
def avExpr (st : AVState) : Expr → AVState
  | .constant _ _ => st
  | .name _ _ => st
  | .attribute v _ _ _ => avExpr st v
  | .subscript v s _ _ => avExpr (avExpr st v) s
  | .compare l pairs _ => avPairs (avExpr st l) pairs
  | .boolOp _ vs _ => avExprList st vs
  | .unaryOp _ o _ => avExpr st o
  | .call f args ln =>
      let st1 := if isPytestHelper f then
          { st with pytestAssertions := st.pytestAssertions ++ [ln] } else st
      avExprList (avExpr st1 f) args
  | .ifExp t b e _ => avExpr (avExpr (avExpr st t) b) e
  | .listComp elt gens _ => avComps (avExpr st elt) gens
  | .setComp elt gens _ => avComps (avExpr st elt) gens
  | .dictComp k v gens _ => avComps (avExpr (avExpr st k) v) gens
  | .generatorExp elt gens _ => avComps (avExpr st elt) gens

/-- AssertionVisitor traversal over an expression list. -/
def avExprList (st : AVState) : ExprList → AVState
  | .nil => st
  | .cons e tl => avExprList (avExpr st e) tl

/-- AssertionVisitor traversal over the comparators of a Compare node. -/
def avPairs (st : AVState) : CmpPairs → AVState
  | .nil => st
  | .cons _ cmp tl => avPairs (avExpr st cmp) tl

/-- AssertionVisitor traversal over one comprehension clause. -/
def avComp (st : AVState) : Comprehension → AVState
  | .mk target iter ifs => avExprList (avExpr (avExpr st target) iter) ifs

/-- AssertionVisitor traversal over comprehension clauses. -/
def avComps (st : AVState) : CompList → AVState
  | .nil => st
  | .cons c tl => avComps (avComp st c) tl

end

/-- AssertionVisitor traversal over an optional expression. -/
def avOptExpr (st : AVState) : Option Expr → AVState
  | Option.none => st
  | Option.some e => avExpr st e

mutual

/-- AssertionVisitor traversal over a statement: visit_Assert records the
assert (and its trivial check) before recursing; all other statements are
walked generically in ast field order. -/
def avStmt (st : AVState) : Stmt → AVState
  | .exprStmt v _ => avExpr st v
  | .assign tgts v _ => avExpr (tgts.foldl avExpr st) v
  | .augAssign t v _ => avExpr (avExpr st t) v
  | .annAssign t v _ => avOptExpr (avExpr st t) v
  | .assertStmt test msg ln =>
      let st1 := { st with assertions := st.assertions ++ [ln] }
      let st2 := if checkTrivial test then
          { st1 with trivialAssertions := st1.trivialAssertions ++ [ln] } else st1
      avOptExpr (avExpr st2 test) msg
  | .returnStmt v _ => avOptExpr st v
  | .raiseStmt e _ => avOptExpr st e
  | .passStmt _ => st
  | .breakStmt _ => st
  | .continueStmt _ => st
  | .globalStmt _ _ => st
  | .importStmt _ _ => st
  | .importFrom _ _ _ => st
  | .ifStmt t b o _ => avStmtList (avStmtList (avExpr st t) b) o
  | .forStmt tg it b o _ => avStmtList (avStmtList (avExpr (avExpr st tg) it) b) o
  | .whileStmt t b o _ => avStmtList (avStmtList (avExpr st t) b) o
  | .withStmt c ov b _ => avStmtList (avOptExpr (avExpr st c) ov) b
  | .tryStmt b hs o fb _ =>
      avStmtList (avStmtList (avHandlers (avStmtList st b) hs) o) fb

/-- AssertionVisitor traversal over a statement list. -/
def avStmtList (st : AVState) : StmtList → AVState
  | .nil => st
  | .cons s tl => avStmtList (avStmt st s) tl

/-- AssertionVisitor traversal over one exception handler. -/
def avHandler (st : AVState) : Handler → AVState
  | .mk typ _ body _ => avStmtList (avOptExpr st typ) body

/-- AssertionVisitor traversal over exception handlers. -/
def avHandlers (st : AVState) : HandlerList → AVState
  | .nil => st
  | .cons h tl => avHandlers (avHandler st h) tl

end

/-- Run the AssertionVisitor on a test function.  There is no
visit_FunctionDef override, so generic_visit walks the fields of the
FunctionDef in ast order: body, then decorator_list. -/
def avRun (f : FunctionDef) : AVState :=
  f.decorators.foldl avExpr (avStmtList ⟨[], [], []⟩ f.body)

/-- The visitor's total_assertions property: direct asserts plus pytest
helper calls. -/
def avTotal (f : FunctionDef) : Nat :=
  (avRun f).assertions.length + (avRun f).pytestAssertions.length

/-- AssertionsAnalyzer._analyze_ast: the issues emitted for one test, given
the configured minimum assertion count. -/
def assertionsAnalyze (minAssertions : Int) (f : FunctionDef) : List Issue :=
  let v := avRun f
  let total := v.assertions.length + v.pytestAssertions.length
  (if total = 0 then [⟨"assertions.missing", Severity.error, f.lineno⟩]
   else if (total : Int) < minAssertions then
     [⟨"assertions.insufficient", Severity.warning, f.lineno⟩]
   else [])
  ++ v.trivialAssertions.map (fun ln => ⟨"assertions.trivial", Severity.error, ln⟩)

mutual

/-- Compositional count of assert statements in a statement whose condition
the source records as trivial. -/
def trivCountStmt : Stmt → Nat
  | .assertStmt test _ _ => if checkTrivial test then 1 else 0
  | .ifStmt _ b o _ => trivCountStmtList b + trivCountStmtList o
  | .forStmt _ _ b o _ => trivCountStmtList b + trivCountStmtList o
  | .whileStmt _ b o _ => trivCountStmtList b + trivCountStmtList o
  | .withStmt _ _ b _ => trivCountStmtList b
  | .tryStmt b hs o fb _ =>
      trivCountStmtList b + trivCountHandlers hs + trivCountStmtList o +
        trivCountStmtList fb
  | _ => 0

def trivCountStmtList : StmtList → Nat
  | .nil => 0
  | .cons s tl => trivCountStmt s + trivCountStmtList tl

def trivCountHandler : Handler → Nat
  | .mk _ _ body _ => trivCountStmtList body

def trivCountHandlers : HandlerList → Nat
  | .nil => 0
  | .cons h tl => trivCountHandler h + trivCountHandlers tl

end

/-- Compositional count of trivially-asserting statements in a test function
(expressions contain no assert statements, so decorators contribute none). -/
def trivCountFunc (f : FunctionDef) : Nat :=
  trivCountStmtList f.body

mutual

/-- Expression traversal touches neither the collected asserts nor the
trivial list (it only collects pytest helper calls). -/
def avExpr_pres : ∀ (e : Expr) (st : AVState),
    (avExpr st e).assertions = st.assertions ∧
      (avExpr st e).trivialAssertions = st.trivialAssertions
  | .constant _ _, st => by simp [avExpr]
  | .name _ _, st => by simp [avExpr]
  | .attribute v _ _ _, st => by
      have h := avExpr_pres v st
      simpa [avExpr] using h
  | .subscript v s _ _, st => by
      have h1 := avExpr_pres v st
      have h2 := avExpr_pres s (avExpr st v)
      simp [avExpr]
      exact ⟨h2.1.trans h1.1, h2.2.trans h1.2⟩
  | .compare l pairs _, st => by
      have h1 := avExpr_pres l st
      have h2 := avPairs_pres pairs (avExpr st l)
      simp [avExpr]
      exact ⟨h2.1.trans h1.1, h2.2.trans h1.2⟩
  | .boolOp _ vs _, st => by
      have h := avExprList_pres vs st
      simpa [avExpr] using h
  | .unaryOp _ o _, st => by
      have h := avExpr_pres o st
      simpa [avExpr] using h
  | .call f args ln, st => by
      have h1 := avExpr_pres f
        (if isPytestHelper f then
          { st with pytestAssertions := st.pytestAssertions ++ [ln] } else st)
      have h2 := avExprList_pres args (avExpr
        (if isPytestHelper f then
          { st with pytestAssertions := st.pytestAssertions ++ [ln] } else st) f)
      simp only [avExpr]
      refine ⟨h2.1.trans (h1.1.trans ?_), h2.2.trans (h1.2.trans ?_)⟩ <;>
        split <;> simp
  | .ifExp t b e _, st => by
      have h1 := avExpr_pres t st
      have h2 := avExpr_pres b (avExpr st t)
      have h3 := avExpr_pres e (avExpr (avExpr st t) b)
      simp [avExpr]
      exact ⟨h3.1.trans (h2.1.trans h1.1), h3.2.trans (h2.2.trans h1.2)⟩
  | .listComp elt gens _, st => by
      have h1 := avExpr_pres elt st
      have h2 := avComps_pres gens (avExpr st elt)
      simp [avExpr]
      exact ⟨h2.1.trans h1.1, h2.2.trans h1.2⟩
  | .setComp elt gens _, st => by
      have h1 := avExpr_pres elt st
      have h2 := avComps_pres gens (avExpr st elt)
      simp [avExpr]
      exact ⟨h2.1.trans h1.1, h2.2.trans h1.2⟩
  | .dictComp k v gens _, st => by
      have h1 := avExpr_pres k st
      have h2 := avExpr_pres v (avExpr st k)
      have h3 := avComps_pres gens (avExpr (avExpr st k) v)
      simp [avExpr]
      exact ⟨h3.1.trans (h2.1.trans h1.1), h3.2.trans (h2.2.trans h1.2)⟩
  | .generatorExp elt gens _, st => by
      have h1 := avExpr_pres elt st
      have h2 := avComps_pres gens (avExpr st elt)
      simp [avExpr]
      exact ⟨h2.1.trans h1.1, h2.2.trans h1.2⟩

def avExprList_pres : ∀ (l : ExprList) (st : AVState),
    (avExprList st l).assertions = st.assertions ∧
      (avExprList st l).trivialAssertions = st.trivialAssertions
  | .nil, st => by simp [avExprList]
  | .cons e tl, st => by
      have h1 := avExpr_pres e st
      have h2 := avExprList_pres tl (avExpr st e)
      simp [avExprList]
      exact ⟨h2.1.trans h1.1, h2.2.trans h1.2⟩

def avPairs_pres : ∀ (p : CmpPairs) (st : AVState),
    (avPairs st p).assertions = st.assertions ∧
      (avPairs st p).trivialAssertions = st.trivialAssertions
  | .nil, st => by simp [avPairs]
  | .cons _ cmp tl, st => by
      have h1 := avExpr_pres cmp st
      have h2 := avPairs_pres tl (avExpr st cmp)
      simp [avPairs]
      exact ⟨h2.1.trans h1.1, h2.2.trans h1.2⟩

def avComp_pres : ∀ (c : Comprehension) (st : AVState),
    (avComp st c).assertions = st.assertions ∧
      (avComp st c).trivialAssertions = st.trivialAssertions
  | .mk target iter ifs, st => by
      have h1 := avExpr_pres target st
      have h2 := avExpr_pres iter (avExpr st target)
      have h3 := avExprList_pres ifs (avExpr (avExpr st target) iter)
      simp [avComp]
      exact ⟨h3.1.trans (h2.1.trans h1.1), h3.2.trans (h2.2.trans h1.2)⟩

def avComps_pres : ∀ (cs : CompList) (st : AVState),
    (avComps st cs).assertions = st.assertions ∧
      (avComps st cs).trivialAssertions = st.trivialAssertions
  | .nil, st => by simp [avComps]
  | .cons c tl, st => by
      have h1 := avComp_pres c st
      have h2 := avComps_pres tl (avComp st c)
      simp [avComps]
      exact ⟨h2.1.trans h1.1, h2.2.trans h1.2⟩

end

theorem avOptExpr_pres (v : Option Expr) (st : AVState) :
    (avOptExpr st v).assertions = st.assertions ∧
      (avOptExpr st v).trivialAssertions = st.trivialAssertions := by
  cases v with
  | none => simp [avOptExpr]
  | some e => simpa [avOptExpr] using avExpr_pres e st

theorem foldl_avExpr_pres (l : List Expr) (st : AVState) :
    (l.foldl avExpr st).assertions = st.assertions ∧
      (l.foldl avExpr st).trivialAssertions = st.trivialAssertions := by
  induction l generalizing st with
  | nil => simp
  | cons e tl ih =>
      have h := avExpr_pres e st
      have h2 := ih (avExpr st e)
      simp only [List.foldl_cons]
      exact ⟨h2.1.trans h.1, h2.2.trans h.2⟩

mutual

/-- The visitor's trivial-assertion list grows by exactly the compositional
count of trivially-asserting statements. -/
def avStmt_triv : ∀ (s : Stmt) (st : AVState),
    (avStmt st s).trivialAssertions.length =
      st.trivialAssertions.length + trivCountStmt s
  | .exprStmt v _, st => by
      have h := avExpr_pres v st
      simp [avStmt, trivCountStmt, h.2]
  | .assign tgts v _, st => by
      have h1 := foldl_avExpr_pres tgts st
      have h2 := avExpr_pres v (tgts.foldl avExpr st)
      simp [avStmt, trivCountStmt, h2.2, h1.2]
  | .augAssign t v _, st => by
      have h1 := avExpr_pres t st
      have h2 := avExpr_pres v (avExpr st t)
      simp [avStmt, trivCountStmt, h2.2, h1.2]
  | .annAssign t v _, st => by
      have h1 := avExpr_pres t st
      have h2 := avOptExpr_pres v (avExpr st t)
      simp [avStmt, trivCountStmt, h2.2, h1.2]
  | .assertStmt test msg ln, st => by
      have h1 := avExpr_pres test
        (if checkTrivial test then
          { st with assertions := st.assertions ++ [ln],
                    trivialAssertions := st.trivialAssertions ++ [ln] }
         else { st with assertions := st.assertions ++ [ln] })
      have h2 := avOptExpr_pres msg (avExpr
        (if checkTrivial test then
          { st with assertions := st.assertions ++ [ln],
                    trivialAssertions := st.trivialAssertions ++ [ln] }
         else { st with assertions := st.assertions ++ [ln] }) test)
      simp only [avStmt, trivCountStmt]
      rw [h2.2, h1.2]
      split <;> simp
  | .returnStmt v _, st => by
      have h := avOptExpr_pres v st
      simp [avStmt, trivCountStmt, h.2]
  | .raiseStmt e _, st => by
      have h := avOptExpr_pres e st
      simp [avStmt, trivCountStmt, h.2]
  | .passStmt _, st => by simp [avStmt, trivCountStmt]
  | .breakStmt _, st => by simp [avStmt, trivCountStmt]
  | .continueStmt _, st => by simp [avStmt, trivCountStmt]
  | .globalStmt _ _, st => by simp [avStmt, trivCountStmt]
  | .importStmt _ _, st => by simp [avStmt, trivCountStmt]
  | .importFrom _ _ _, st => by simp [avStmt, trivCountStmt]
  | .ifStmt t b o _, st => by
      have h1 := avExpr_pres t st
      have h2 := avStmtList_triv b (avExpr st t)
      have h3 := avStmtList_triv o (avStmtList (avExpr st t) b)
      simp [avStmt, trivCountStmt, h3, h2, h1.2]; omega
  | .forStmt tg it b o _, st => by
      have h1 := avExpr_pres tg st
      have h2 := avExpr_pres it (avExpr st tg)
      have h3 := avStmtList_triv b (avExpr (avExpr st tg) it)
      have h4 := avStmtList_triv o (avStmtList (avExpr (avExpr st tg) it) b)
      simp [avStmt, trivCountStmt, h4, h3, h2.2, h1.2]; omega
  | .whileStmt t b o _, st => by
      have h1 := avExpr_pres t st
      have h2 := avStmtList_triv b (avExpr st t)
      have h3 := avStmtList_triv o (avStmtList (avExpr st t) b)
      simp [avStmt, trivCountStmt, h3, h2, h1.2]; omega
  | .withStmt c ov b _, st => by
      have h1 := avExpr_pres c st
      have h2 := avOptExpr_pres ov (avExpr st c)
      have h3 := avStmtList_triv b (avOptExpr (avExpr st c) ov)
      simp [avStmt, trivCountStmt, h3, h2.2, h1.2]
  | .tryStmt b hs o fb _, st => by
      have h1 := avStmtList_triv b st
      have h2 := avHandlers_triv hs (avStmtList st b)
      have h3 := avStmtList_triv o (avHandlers (avStmtList st b) hs)
      have h4 := avStmtList_triv fb (avStmtList (avHandlers (avStmtList st b) hs) o)
      simp [avStmt, trivCountStmt, h4, h3, h2, h1]; omega

def avStmtList_triv : ∀ (l : StmtList) (st : AVState),
    (avStmtList st l).trivialAssertions.length =
      st.trivialAssertions.length + trivCountStmtList l
  | .nil, st => by simp [avStmtList, trivCountStmtList]
  | .cons s tl, st => by
      have h1 := avStmt_triv s st
      have h2 := avStmtList_triv tl (avStmt st s)
      simp [avStmtList, trivCountStmtList, h2, h1]; omega

def avHandler_triv : ∀ (h : Handler) (st : AVState),
    (avHandler st h).trivialAssertions.length =
      st.trivialAssertions.length + trivCountHandler h
  | .mk typ _ body _, st => by
      have h1 := avOptExpr_pres typ st
      have h2 := avStmtList_triv body (avOptExpr st typ)
      simp [avHandler, trivCountHandler, h2, h1.2]

def avHandlers_triv : ∀ (hl : HandlerList) (st : AVState),
    (avHandlers st hl).trivialAssertions.length =
      st.trivialAssertions.length + trivCountHandlers hl
  | .nil, st => by simp [avHandlers, trivCountHandlers]
  | .cons h tl, st => by
      have h1 := avHandler_triv h st
      have h2 := avHandlers_triv tl (avHandler st h)
      simp [avHandlers, trivCountHandlers, h2, h1]; omega

end

/-- The number of trivial assertions the visitor records for a test equals
the compositional count over its body. -/
theorem avRun_triv (f : FunctionDef) :
    (avRun f).trivialAssertions.length = trivCountFunc f := by
  have h1 := avStmtList_triv f.body ⟨[], [], []⟩
  have h2 := foldl_avExpr_pres f.decorators (avStmtList ⟨[], [], []⟩ f.body)
  simp only [avRun, trivCountFunc, h2.2, h1]
  simp

/-! ## Complexity Analyzer (analyzers/complexity.py) -/

/-- State of ComplexityVisitor: statement count, maximum nesting depth
reached, cyclomatic complexity, and the current depth. -/
structure CVState where
  statementCount : Nat
  maxDepth : Nat
  cyclomaticComplexity : Int
  currentDepth : Nat
deriving DecidableEq, Repr

/-- ComplexityVisitor._count_statement. -/
def countStatement (st : CVState) : CVState :=
  { st with statementCount := st.statementCount + 1 }

/-- Add an amount to the cyclomatic complexity counter. -/
def addCC (k : Int) (st : CVState) : CVState :=
  { st with cyclomaticComplexity := st.cyclomaticComplexity + k }

/-- ComplexityVisitor._enter_scope. -/
def enterScope (st : CVState) : CVState :=
  { st with currentDepth := st.currentDepth + 1,
            maxDepth := max st.maxDepth (st.currentDepth + 1) }

/-- ComplexityVisitor._exit_scope. -/
def exitScope (st : CVState) : CVState :=
  { st with currentDepth := st.currentDepth - 1 }

/-- Length of an ExprList. -/
def ExprList.length : ExprList → Nat
  | .nil => 0
  | .cons _ tl => tl.length + 1

/-- Number of direct ast.If statements in a statement list, as scanned by
visit_If over node.orelse to count elif branches. -/
def StmtList.countIfs : StmtList → Nat
  | .nil => 0
  | .cons (.ifStmt _ _ _ _) tl => tl.countIfs + 1
  | .cons _ tl => tl.countIfs

/-- The cyclomatic amount a comprehension's generator clauses add up front:
+1 per generator plus +1 per filter condition (visit_ListComp and friends). -/
def CompList.genCC : CompList → Int
  | .nil => 0
  | .cons (.mk _ _ ifs) tl => 1 + (ifs.length : Int) + tl.genCC

mutual

/-- ComplexityVisitor traversal over an expression. -/
def cvExpr (st : CVState) : Expr → CVState
  | .constant _ _ => st
  | .name _ _ => st
  | .attribute v _ _ _ => cvExpr st v
  | .subscript v s _ _ => cvExpr (cvExpr st v) s
  | .compare l pairs _ => cvPairs (cvExpr st l) pairs
  | .boolOp _ vs _ => cvExprList (addCC ((vs.length : Int) - 1) st) vs
  | .unaryOp _ o _ => cvExpr st o
  | .call f args _ => cvExprList (cvExpr st f) args
  | .ifExp t b e _ => cvExpr (cvExpr (cvExpr (addCC 1 st) t) b) e
  | .listComp elt gens _ => cvComps (cvExpr (addCC gens.genCC (countStatement st)) elt) gens
  | .setComp elt gens _ => cvComps (cvExpr (addCC gens.genCC (countStatement st)) elt) gens
  | .dictComp k v gens _ =>
      cvComps (cvExpr (cvExpr (addCC gens.genCC (countStatement st)) k) v) gens
  | .generatorExp elt gens _ => cvComps (cvExpr (addCC gens.genCC st) elt) gens

/-- ComplexityVisitor traversal over an expression list. -/
def cvExprList (st : CVState) : ExprList → CVState
  | .nil => st
  | .cons e tl => cvExprList (cvExpr st e) tl

/-- ComplexityVisitor traversal over the comparators of a Compare node. -/
def cvPairs (st : CVState) : CmpPairs → CVState
  | .nil => st
  | .cons _ cmp tl => cvPairs (cvExpr st cmp) tl

/-- ComplexityVisitor traversal over one comprehension clause. -/
def cvComp (st : CVState) : Comprehension → CVState
  | .mk target iter ifs => cvExprList (cvExpr (cvExpr st target) iter) ifs

/-- ComplexityVisitor traversal over comprehension clauses. -/
def cvComps (st : CVState) : CompList → CVState
  | .nil => st
  | .cons c tl => cvComps (cvComp st c) tl

end

/-- ComplexityVisitor traversal over an optional expression. -/
def cvOptExpr (st : CVState) : Option Expr → CVState
  | Option.none => st
  | Option.some e => cvExpr st e

mutual

/-- ComplexityVisitor traversal over a statement, mirroring the visit_*
methods of the source: simple statements count themselves; if/for/while add
a decision point and enter a scope; visit_If additionally adds one per
direct If statement in its orelse (the elif scan). -/
def cvStmt (st : CVState) : Stmt → CVState
  | .exprStmt v _ => cvExpr (countStatement st) v
  | .assign tgts v _ => cvExpr (tgts.foldl cvExpr (countStatement st)) v
  | .augAssign t v _ => cvExpr (cvExpr (countStatement st) t) v
  | .annAssign t v _ => cvOptExpr (cvExpr (countStatement st) t) v
  | .assertStmt test msg _ => cvOptExpr (cvExpr (countStatement st) test) msg
  | .returnStmt v _ => cvOptExpr (countStatement st) v
  | .raiseStmt e _ => cvOptExpr (countStatement st) e
  | .passStmt _ => countStatement st
  | .breakStmt _ => countStatement st
  | .continueStmt _ => countStatement st
  | .globalStmt _ _ => st
  | .importStmt _ _ => countStatement st
  | .importFrom _ _ _ => countStatement st
  | .ifStmt t b o _ =>
      exitScope (cvStmtList (cvStmtList (cvExpr
        (enterScope (addCC (o.countIfs : Int) (addCC 1 (countStatement st)))) t) b) o)
  | .forStmt tg it b o _ =>
      exitScope (cvStmtList (cvStmtList (cvExpr (cvExpr
        (enterScope (addCC 1 (countStatement st))) tg) it) b) o)
  | .whileStmt t b o _ =>
      exitScope (cvStmtList (cvStmtList (cvExpr
        (enterScope (addCC 1 (countStatement st))) t) b) o)
  | .withStmt c ov b _ =>
      exitScope (cvStmtList (cvOptExpr (cvExpr (enterScope (countStatement st)) c) ov) b)
  | .tryStmt b hs o fb _ =>
      exitScope (cvStmtList (cvStmtList (cvHandlers
        (cvStmtList (enterScope (countStatement st)) b) hs) o) fb)

/-- ComplexityVisitor traversal over a statement list. -/
def cvStmtList (st : CVState) : StmtList → CVState
  | .nil => st
  | .cons s tl => cvStmtList (cvStmt st s) tl

/-- ComplexityVisitor traversal over one exception handler (visit_ExceptHandler):
one decision point plus a nested scope. -/
def cvHandler (st : CVState) : Handler → CVState
  | .mk typ _ body _ => exitScope (cvStmtList (cvOptExpr (enterScope (addCC 1 st)) typ) body)

/-- ComplexityVisitor traversal over exception handlers. -/
def cvHandlers (st : CVState) : HandlerList → CVState
  | .nil => st
  | .cons h tl => cvHandlers (cvHandler st h) tl

end

/-- Run the ComplexityVisitor on a test function: base complexity 1, then
generic_visit over the FunctionDef fields (body, then decorator_list). -/
def cvRun (f : FunctionDef) : CVState :=
  f.decorators.foldl cvExpr (cvStmtList ⟨0, 0, 1, 0⟩ f.body)

mutual

/-- Compositional cyclomatic contribution of an expression: one per
boolean-operator chain operand beyond the first, one per ternary, one per
comprehension generator clause plus one per filter condition. -/
def ccExpr : Expr → Int
  | .constant _ _ => 0
  | .name _ _ => 0
  | .attribute v _ _ _ => ccExpr v
  | .subscript v s _ _ => ccExpr v + ccExpr s
  | .compare l pairs _ => ccExpr l + ccCmpPairs pairs
  | .boolOp _ vs _ => ((vs.length : Int) - 1) + ccExprList vs
  | .unaryOp _ o _ => ccExpr o
  | .call f args _ => ccExpr f + ccExprList args
  | .ifExp t b e _ => 1 + ccExpr t + ccExpr b + ccExpr e
  | .listComp elt gens _ => gens.genCC + ccExpr elt + ccCompList gens
  | .setComp elt gens _ => gens.genCC + ccExpr elt + ccCompList gens
  | .dictComp k v gens _ => gens.genCC + ccExpr k + ccExpr v + ccCompList gens
  | .generatorExp elt gens _ => gens.genCC + ccExpr elt + ccCompList gens

/-- Compositional cyclomatic contribution of an expression list. -/
def ccExprList : ExprList → Int
  | .nil => 0
  | .cons e tl => ccExpr e + ccExprList tl

/-- Compositional cyclomatic contribution of Compare comparators. -/
def ccCmpPairs : CmpPairs → Int
  | .nil => 0
  | .cons _ cmp tl => ccExpr cmp + ccCmpPairs tl

/-- Compositional cyclomatic contribution of the expressions inside one
comprehension clause. -/
def ccComp : Comprehension → Int
  | .mk target iter ifs => ccExpr target + ccExpr iter + ccExprList ifs

/-- Compositional cyclomatic contribution of the expressions inside
comprehension clauses. -/
def ccCompList : CompList → Int
  | .nil => 0
  | .cons c tl => ccComp c + ccCompList tl

end

/-- Compositional cyclomatic contribution of an optional expression. -/
def ccOptExpr : Option Expr → Int
  | Option.none => 0
  | Option.some e => ccExpr e

mutual

/-- Compositional cyclomatic contribution of a statement: one per if plus
one more per direct If statement in its orelse, one per for/while, one per
exception handler, plus the contributions of all nested expressions. -/
def ccStmt : Stmt → Int
  | .exprStmt v _ => ccExpr v
  | .assign tgts v _ => (tgts.map ccExpr).sum + ccExpr v
  | .augAssign t v _ => ccExpr t + ccExpr v
  | .annAssign t v _ => ccExpr t + ccOptExpr v
  | .assertStmt test msg _ => ccExpr test + ccOptExpr msg
  | .returnStmt v _ => ccOptExpr v
  | .raiseStmt e _ => ccOptExpr e
  | .passStmt _ => 0
  | .breakStmt _ => 0
  | .continueStmt _ => 0
  | .globalStmt _ _ => 0
  | .importStmt _ _ => 0
  | .importFrom _ _ _ => 0
  | .ifStmt t b o _ => 1 + (o.countIfs : Int) + ccExpr t + ccStmtList b + ccStmtList o
  | .forStmt tg it b o _ => 1 + ccExpr tg + ccExpr it + ccStmtList b + ccStmtList o
  | .whileStmt t b o _ => 1 + ccExpr t + ccStmtList b + ccStmtList o
  | .withStmt c ov b _ => ccExpr c + ccOptExpr ov + ccStmtList b
  | .tryStmt b hs o fb _ => ccStmtList b + ccHandlerList hs + ccStmtList o + ccStmtList fb

/-- Compositional cyclomatic contribution of a statement list. -/
def ccStmtList : StmtList → Int
  | .nil => 0
  | .cons s tl => ccStmt s + ccStmtList tl

/-- Compositional cyclomatic contribution of one exception handler. -/
def ccHandler : Handler → Int
  | .mk typ _ body _ => 1 + ccOptExpr typ + ccStmtList body

/-- Compositional cyclomatic contribution of exception handlers. -/
def ccHandlerList : HandlerList → Int
  | .nil => 0
  | .cons h tl => ccHandler h + ccHandlerList tl

end

/-- Compositional cyclomatic contribution of a whole test function. -/
def ccFunctionDef (f : FunctionDef) : Int :=
  ccStmtList f.body + (f.decorators.map ccExpr).sum

theorem cc_countStatement (st : CVState) :
    (countStatement st).cyclomaticComplexity = st.cyclomaticComplexity := rfl

theorem cc_addCC (k : Int) (st : CVState) :
    (addCC k st).cyclomaticComplexity = st.cyclomaticComplexity + k := rfl

theorem cc_enterScope (st : CVState) :
    (enterScope st).cyclomaticComplexity = st.cyclomaticComplexity := rfl

theorem cc_exitScope (st : CVState) :
    (exitScope st).cyclomaticComplexity = st.cyclomaticComplexity := rfl

mutual

/-- The visitor's cyclomatic counter is the initial counter plus the
compositional contribution, for expressions. -/
def cvExpr_cc : ∀ (e : Expr) (st : CVState),
    (cvExpr st e).cyclomaticComplexity = st.cyclomaticComplexity + ccExpr e
  | .constant _ _, st => by simp [cvExpr, ccExpr]
  | .name _ _, st => by simp [cvExpr, ccExpr]
  | .attribute v _ _ _, st => by
      have h := cvExpr_cc v st
      simp [cvExpr, ccExpr, h]
  | .subscript v s _ _, st => by
      have h1 := cvExpr_cc v st
      have h2 := cvExpr_cc s (cvExpr st v)
      simp [cvExpr, ccExpr, h2, h1]; omega
  | .compare l pairs _, st => by
      have h1 := cvExpr_cc l st
      have h2 := cvPairs_cc pairs (cvExpr st l)
      simp [cvExpr, ccExpr, h2, h1]; omega
  | .boolOp _ vs _, st => by
      have h := cvExprList_cc vs (addCC ((vs.length : Int) - 1) st)
      simp [cvExpr, ccExpr, h, cc_addCC]; omega
  | .unaryOp _ o _, st => by
      have h := cvExpr_cc o st
      simp [cvExpr, ccExpr, h]
  | .call f args _, st => by
      have h1 := cvExpr_cc f st
      have h2 := cvExprList_cc args (cvExpr st f)
      simp [cvExpr, ccExpr, h2, h1]; omega
  | .ifExp t b e _, st => by
      have h1 := cvExpr_cc t (addCC 1 st)
      have h2 := cvExpr_cc b (cvExpr (addCC 1 st) t)
      have h3 := cvExpr_cc e (cvExpr (cvExpr (addCC 1 st) t) b)
      simp [cvExpr, ccExpr, h3, h2, h1, cc_addCC]; omega
  | .listComp elt gens _, st => by
      have h1 := cvExpr_cc elt (addCC gens.genCC (countStatement st))
      have h2 := cvComps_cc gens (cvExpr (addCC gens.genCC (countStatement st)) elt)
      simp [cvExpr, ccExpr, h2, h1, cc_addCC, cc_countStatement]; omega
  | .setComp elt gens _, st => by
      have h1 := cvExpr_cc elt (addCC gens.genCC (countStatement st))
      have h2 := cvComps_cc gens (cvExpr (addCC gens.genCC (countStatement st)) elt)
      simp [cvExpr, ccExpr, h2, h1, cc_addCC, cc_countStatement]; omega
  | .dictComp k v gens _, st => by
      have h1 := cvExpr_cc k (addCC gens.genCC (countStatement st))
      have h2 := cvExpr_cc v (cvExpr (addCC gens.genCC (countStatement st)) k)
      have h3 := cvComps_cc gens (cvExpr (cvExpr (addCC gens.genCC (countStatement st)) k) v)
      simp [cvExpr, ccExpr, h3, h2, h1, cc_addCC, cc_countStatement]; omega
  | .generatorExp elt gens _, st => by
      have h1 := cvExpr_cc elt (addCC gens.genCC st)
      have h2 := cvComps_cc gens (cvExpr (addCC gens.genCC st) elt)
      simp [cvExpr, ccExpr, h2, h1, cc_addCC]; omega

/-- The visitor's cyclomatic counter is additive over expression lists. -/
def cvExprList_cc : ∀ (l : ExprList) (st : CVState),
    (cvExprList st l).cyclomaticComplexity = st.cyclomaticComplexity + ccExprList l
  | .nil, st => by simp [cvExprList, ccExprList]
  | .cons e tl, st => by
      have h1 := cvExpr_cc e st
      have h2 := cvExprList_cc tl (cvExpr st e)
      simp [cvExprList, ccExprList, h2, h1]; omega

/-- The visitor's cyclomatic counter is additive over comparators. -/
def cvPairs_cc : ∀ (p : CmpPairs) (st : CVState),
    (cvPairs st p).cyclomaticComplexity = st.cyclomaticComplexity + ccCmpPairs p
  | .nil, st => by simp [cvPairs, ccCmpPairs]
  | .cons _ cmp tl, st => by
      have h1 := cvExpr_cc cmp st
      have h2 := cvPairs_cc tl (cvExpr st cmp)
      simp [cvPairs, ccCmpPairs, h2, h1]; omega

/-- The visitor's cyclomatic counter is additive over one comprehension. -/
def cvComp_cc : ∀ (c : Comprehension) (st : CVState),
    (cvComp st c).cyclomaticComplexity = st.cyclomaticComplexity + ccComp c
  | .mk target iter ifs, st => by
      have h1 := cvExpr_cc target st
      have h2 := cvExpr_cc iter (cvExpr st target)
      have h3 := cvExprList_cc ifs (cvExpr (cvExpr st target) iter)
      simp [cvComp, ccComp, h3, h2, h1]; omega

/-- The visitor's cyclomatic counter is additive over comprehension lists. -/
def cvComps_cc : ∀ (cs : CompList) (st : CVState),
    (cvComps st cs).cyclomaticComplexity = st.cyclomaticComplexity + ccCompList cs
  | .nil, st => by simp [cvComps, ccCompList]
  | .cons c tl, st => by
      have h1 := cvComp_cc c st
      have h2 := cvComps_cc tl (cvComp st c)
      simp [cvComps, ccCompList, h2, h1]; omega

end

theorem cvOptExpr_cc (v : Option Expr) (st : CVState) :
    (cvOptExpr st v).cyclomaticComplexity = st.cyclomaticComplexity + ccOptExpr v := by
  cases v with
  | none => simp [cvOptExpr, ccOptExpr]
  | some e => simpa [cvOptExpr, ccOptExpr] using cvExpr_cc e st

theorem foldl_cvExpr_cc (l : List Expr) (st : CVState) :
    (l.foldl cvExpr st).cyclomaticComplexity =
      st.cyclomaticComplexity + (l.map ccExpr).sum := by
  induction l generalizing st with
  | nil => simp
  | cons e tl ih =>
      have h := cvExpr_cc e st
      simp only [List.foldl_cons, List.map_cons, List.sum_cons, ih, h]
      omega

mutual

/-- The visitor's cyclomatic counter is the initial counter plus the
compositional contribution, for statements. -/
def cvStmt_cc : ∀ (s : Stmt) (st : CVState),
    (cvStmt st s).cyclomaticComplexity = st.cyclomaticComplexity + ccStmt s
  | .exprStmt v _, st => by
      have h := cvExpr_cc v (countStatement st)
      simp [cvStmt, ccStmt, h, cc_countStatement]
  | .assign tgts v _, st => by
      have h1 := foldl_cvExpr_cc tgts (countStatement st)
      have h2 := cvExpr_cc v (tgts.foldl cvExpr (countStatement st))
      simp [cvStmt, ccStmt, h2, h1, cc_countStatement]; omega
  | .augAssign t v _, st => by
      have h1 := cvExpr_cc t (countStatement st)
      have h2 := cvExpr_cc v (cvExpr (countStatement st) t)
      simp [cvStmt, ccStmt, h2, h1, cc_countStatement]; omega
  | .annAssign t v _, st => by
      have h1 := cvExpr_cc t (countStatement st)
      have h2 := cvOptExpr_cc v (cvExpr (countStatement st) t)
      simp [cvStmt, ccStmt, h2, h1, cc_countStatement]; omega
  | .assertStmt test msg _, st => by
      have h1 := cvExpr_cc test (countStatement st)
      have h2 := cvOptExpr_cc msg (cvExpr (countStatement st) test)
      simp [cvStmt, ccStmt, h2, h1, cc_countStatement]; omega
  | .returnStmt v _, st => by
      have h := cvOptExpr_cc v (countStatement st)
      simp [cvStmt, ccStmt, h, cc_countStatement]
  | .raiseStmt e _, st => by
      have h := cvOptExpr_cc e (countStatement st)
      simp [cvStmt, ccStmt, h, cc_countStatement]
  | .passStmt _, st => by simp [cvStmt, ccStmt, cc_countStatement]
  | .breakStmt _, st => by simp [cvStmt, ccStmt, cc_countStatement]
  | .continueStmt _, st => by simp [cvStmt, ccStmt, cc_countStatement]
  | .globalStmt _ _, st => by simp [cvStmt, ccStmt]
  | .importStmt _ _, st => by simp [cvStmt, ccStmt, cc_countStatement]
  | .importFrom _ _ _, st => by simp [cvStmt, ccStmt, cc_countStatement]
  | .ifStmt t b o _, st => by
      have h1 := cvExpr_cc t
        (enterScope (addCC (o.countIfs : Int) (addCC 1 (countStatement st))))
      have h2 := cvStmtList_cc b
        (cvExpr (enterScope (addCC (o.countIfs : Int) (addCC 1 (countStatement st)))) t)
      have h3 := cvStmtList_cc o
        (cvStmtList (cvExpr
          (enterScope (addCC (o.countIfs : Int) (addCC 1 (countStatement st)))) t) b)
      simp [cvStmt, ccStmt, cc_exitScope, h3, h2, h1, cc_enterScope, cc_addCC,
        cc_countStatement]
      omega
  | .forStmt tg it b o _, st => by
      have h1 := cvExpr_cc tg (enterScope (addCC 1 (countStatement st)))
      have h2 := cvExpr_cc it (cvExpr (enterScope (addCC 1 (countStatement st))) tg)
      have h3 := cvStmtList_cc b
        (cvExpr (cvExpr (enterScope (addCC 1 (countStatement st))) tg) it)
      have h4 := cvStmtList_cc o
        (cvStmtList (cvExpr (cvExpr (enterScope (addCC 1 (countStatement st))) tg) it) b)
      simp [cvStmt, ccStmt, cc_exitScope, h4, h3, h2, h1, cc_enterScope, cc_addCC,
        cc_countStatement]
      omega
  | .whileStmt t b o _, st => by
      have h1 := cvExpr_cc t (enterScope (addCC 1 (countStatement st)))
      have h2 := cvStmtList_cc b (cvExpr (enterScope (addCC 1 (countStatement st))) t)
      have h3 := cvStmtList_cc o
        (cvStmtList (cvExpr (enterScope (addCC 1 (countStatement st))) t) b)
      simp [cvStmt, ccStmt, cc_exitScope, h3, h2, h1, cc_enterScope, cc_addCC,
        cc_countStatement]
      omega
  | .withStmt c ov b _, st => by
      have h1 := cvExpr_cc c (enterScope (countStatement st))
      have h2 := cvOptExpr_cc ov (cvExpr (enterScope (countStatement st)) c)
      have h3 := cvStmtList_cc b (cvOptExpr (cvExpr (enterScope (countStatement st)) c) ov)
      simp [cvStmt, ccStmt, cc_exitScope, h3, h2, h1, cc_enterScope, cc_countStatement]
      omega
  | .tryStmt b hs o fb _, st => by
      have h1 := cvStmtList_cc b (enterScope (countStatement st))
      have h2 := cvHandlers_cc hs (cvStmtList (enterScope (countStatement st)) b)
      have h3 := cvStmtList_cc o
        (cvHandlers (cvStmtList (enterScope (countStatement st)) b) hs)
      have h4 := cvStmtList_cc fb
        (cvStmtList (cvHandlers (cvStmtList (enterScope (countStatement st)) b) hs) o)
      simp [cvStmt, ccStmt, cc_exitScope, h4, h3, h2, h1, cc_enterScope, cc_countStatement]
      omega

/-- The visitor's cyclomatic counter is additive over statement lists. -/
def cvStmtList_cc : ∀ (l : StmtList) (st : CVState),
    (cvStmtList st l).cyclomaticComplexity = st.cyclomaticComplexity + ccStmtList l
  | .nil, st => by simp [cvStmtList, ccStmtList]
  | .cons s tl, st => by
      have h1 := cvStmt_cc s st
      have h2 := cvStmtList_cc tl (cvStmt st s)
      simp [cvStmtList, ccStmtList, h2, h1]; omega

/-- The visitor's cyclomatic counter is additive over one handler. -/
def cvHandler_cc : ∀ (h : Handler) (st : CVState),
    (cvHandler st h).cyclomaticComplexity = st.cyclomaticComplexity + ccHandler h
  | .mk typ _ body _, st => by
      have h1 := cvOptExpr_cc typ (enterScope (addCC 1 st))
      have h2 := cvStmtList_cc body (cvOptExpr (enterScope (addCC 1 st)) typ)
      simp [cvHandler, ccHandler, cc_exitScope, h2, h1, cc_enterScope, cc_addCC]; omega

/-- The visitor's cyclomatic counter is additive over handler lists. -/
def cvHandlers_cc : ∀ (hl : HandlerList) (st : CVState),
    (cvHandlers st hl).cyclomaticComplexity = st.cyclomaticComplexity + ccHandlerList hl
  | .nil, st => by simp [cvHandlers, ccHandlerList]
  | .cons h tl, st => by
      have h1 := cvHandler_cc h st
      have h2 := cvHandlers_cc tl (cvHandler st h)
      simp [cvHandlers, ccHandlerList, h2, h1]; omega

end

/-- The measured cyclomatic complexity of a test function is 1 plus the
compositional contribution of its body and decorators. -/
theorem cvRun_cc (f : FunctionDef) :
    (cvRun f).cyclomaticComplexity = 1 + ccFunctionDef f := by
  have h1 := cvStmtList_cc f.body ⟨0, 0, 1, 0⟩
  have h2 := foldl_cvExpr_cc f.decorators (cvStmtList ⟨0, 0, 1, 0⟩ f.body)
  simp only [cvRun, ccFunctionDef, h2, h1]
  omega

/-! ## Structural Smells Analyzer (analyzers/smells.py) -/

/-- Configuration of the smells analyzer, with the source's defaults. -/
structure SmellsConfig where
  maxAssertionsWithoutMessage : Int := 1
  checkMagicNumbers : Bool := true
  checkEagerTest : Bool := true

mutual

/-- Size of an expression, used as the termination measure of the
breadth-first walk. -/
def Expr.esize : Expr → Nat
  | .constant _ _ => 1
  | .name _ _ => 1
  | .attribute v _ _ _ => 1 + v.esize
  | .subscript v s _ _ => 1 + v.esize + s.esize
  | .compare l pairs _ => 1 + l.esize + pairs.psize
  | .boolOp _ vs _ => 1 + vs.lsize
  | .unaryOp _ o _ => 1 + o.esize
  | .call f args _ => 1 + f.esize + args.lsize
  | .ifExp t b e _ => 1 + t.esize + b.esize + e.esize
  | .listComp elt gens _ => 1 + elt.esize + gens.csize
  | .setComp elt gens _ => 1 + elt.esize + gens.csize
  | .dictComp k v gens _ => 1 + k.esize + v.esize + gens.csize
  | .generatorExp elt gens _ => 1 + elt.esize + gens.csize

/-- Size of an expression list. -/
def ExprList.lsize : ExprList → Nat
  | .nil => 0
  | .cons e tl => e.esize + tl.lsize

/-- Size of Compare comparators. -/
def CmpPairs.psize : CmpPairs → Nat
  | .nil => 0
  | .cons _ cmp tl => cmp.esize + tl.psize

/-- Size of a comprehension clause. -/
def Comprehension.osize : Comprehension → Nat
  | .mk target iter ifs => target.esize + iter.esize + ifs.lsize

/-- Size of a comprehension clause list. -/
def CompList.csize : CompList → Nat
  | .nil => 0
  | .cons c tl => c.osize + tl.csize

end

/-- The expressions nested directly inside comprehension clauses, in ast
field order. -/
def compChildren : CompList → List Expr
  | .nil => []
  | .cons (.mk target iter ifs) tl =>
      target :: iter :: (ExprList.toList ifs ++ compChildren tl)

/-- The direct expression children of an expression node, in ast field
order (comprehension clause nodes are flattened into their expressions). -/
def exprChildren : Expr → List Expr
  | .constant _ _ => []
  | .name _ _ => []
  | .attribute v _ _ _ => [v]
  | .subscript v s _ _ => [v, s]
  | .compare l pairs _ => l :: pairs.comparators
  | .boolOp _ vs _ => vs.toList
  | .unaryOp _ o _ => [o]
  | .call f args _ => f :: args.toList
  | .ifExp t b e _ => [t, b, e]
  | .listComp elt gens _ => elt :: compChildren gens
  | .setComp elt gens _ => elt :: compChildren gens
  | .dictComp k v gens _ => k :: v :: compChildren gens
  | .generatorExp elt gens _ => elt :: compChildren gens

def toList_esize_sum : ∀ l : ExprList, ((ExprList.toList l).map Expr.esize).sum = l.lsize
  | .nil => by simp [ExprList.toList, ExprList.lsize]
  | .cons e tl => by
      have h := toList_esize_sum tl
      simp [ExprList.toList, ExprList.lsize, h]

def comparators_esize_sum :
    ∀ p : CmpPairs, ((CmpPairs.comparators p).map Expr.esize).sum = p.psize
  | .nil => by simp [CmpPairs.comparators, CmpPairs.psize]
  | .cons _ cmp tl => by
      have h := comparators_esize_sum tl
      simp [CmpPairs.comparators, CmpPairs.psize, h]

def compChildren_esize_sum :
    ∀ cs : CompList, ((compChildren cs).map Expr.esize).sum = cs.csize
  | .nil => by simp [compChildren, CompList.csize]
  | .cons (.mk target iter ifs) tl => by
      have h := compChildren_esize_sum tl
      have h2 := toList_esize_sum ifs
      simp [compChildren, CompList.csize, Comprehension.osize, h, h2]
      omega

/-- The children of a node are strictly smaller than the node. -/
theorem exprChildren_esize_lt (e : Expr) :
    ((exprChildren e).map Expr.esize).sum < e.esize := by
  cases e <;>
    simp [exprChildren, Expr.esize, toList_esize_sum, comparators_esize_sum,
      compChildren_esize_sum] <;>
    omega

/-- The breadth-first worklist traversal of ast.walk: yield the head of the
queue, then enqueue its children at the back. -/
def walkFrom (queue : List Expr) : List Expr :=
  match queue with
  | [] => []
  | e :: rest => e :: walkFrom (rest ++ exprChildren e)
termination_by (queue.map Expr.esize).sum
decreasing_by
  simp only [List.map_append, List.sum_append, List.map_cons, List.sum_cons]
  have := exprChildren_esize_lt e
  omega

/-- The worklist loop of walkFrom with an explicit step budget: each
iteration dequeues exactly one node, so a budget of the tree's node count
runs the loop to completion (walkSteps_eq_walkFrom below). -/
def walkSteps : Nat → List Expr → List Expr
  | _, [] => []
  | 0, _ :: _ => []
  | fuel + 1, e :: rest => e :: walkSteps fuel (rest ++ exprChildren e)

theorem esize_pos (e : Expr) : 0 < e.esize := by
  cases e <;> simp [Expr.esize]

theorem walkSteps_eq_walkFrom :
    ∀ (fuel : Nat) (queue : List Expr), (queue.map Expr.esize).sum ≤ fuel →
      walkSteps fuel queue = walkFrom queue := by
  intro fuel
  induction fuel with
  | zero =>
      intro queue hq
      cases queue with
      | nil => simp [walkSteps, walkFrom]
      | cons e rest =>
          exfalso
          simp only [List.map_cons, List.sum_cons, Nat.le_zero] at hq
          have := esize_pos e
          omega
  | succ fuel ih =>
      intro queue hq
      cases queue with
      | nil => simp [walkSteps, walkFrom]
      | cons e rest =>
          rw [walkSteps, walkFrom]
          congr 1
          refine ih _ ?_
          simp only [List.map_cons, List.sum_cons] at hq
          simp only [List.map_append, List.sum_append]
          have := exprChildren_esize_lt e
          omega

/-- ast.walk over an expression tree: the node itself, then all descendants
in breadth-first order (computed with the step budget of the node count). -/
def astWalk (e : Expr) : List Expr := walkSteps e.esize [e]

/-- astWalk runs the faithful worklist loop to completion. -/
theorem astWalk_eq_walkFrom (e : Expr) : astWalk e = walkFrom [e] :=
  walkSteps_eq_walkFrom e.esize [e] (by simp)

/-- Magic-number allow-list membership and numeric-type test of
SmellVisitor._check_magic_number: the constant is an int or float (Python
bools are ints) whose value is not in {0, 1, -1, 2, 100, 1000}. -/
def constMagicCandidate (v : Const) : Bool :=
  (match v with
   | .int _ => true
   | .bool _ => true
   | _ => false) &&
  !(v.pyEqInt 0 || v.pyEqInt 1 || v.pyEqInt (-1) || v.pyEqInt 2 ||
    v.pyEqInt 100 || v.pyEqInt 1000)

/-- Whether a walked node is a magic-number constant. -/
def isMagicNode : Expr → Bool
  | .constant v _ => constMagicCandidate v
  | _ => false

/-- Insertion into a Python set, modelled as an insertion-ordered list
without duplicates. -/
def addTarget (tgts : List String) (s : String) : List String :=
  if s ∈ tgts then tgts else tgts ++ [s]

mutual

/-- SmellVisitor._extract_call_target: record the called function or method
name of a Call, and recurse into the operands of comparisons and
boolean-operator chains. -/
def extractCallTarget (tgts : List String) : Expr → List String
  | .call f _ _ =>
      match f with
      | .name id _ => addTarget tgts id
      | .attribute _ attr _ _ => addTarget tgts attr
      | _ => tgts
  | .compare l pairs _ => extractPairsTargets (extractCallTarget tgts l) pairs
  | .boolOp _ vs _ => extractListTargets tgts vs
  | _ => tgts

/-- extract_call_target over the comparators of a comparison. -/
def extractPairsTargets (tgts : List String) : CmpPairs → List String
  | .nil => tgts
  | .cons _ cmp tl => extractPairsTargets (extractCallTarget tgts cmp) tl

/-- extract_call_target over the values of a boolean-operator chain. -/
def extractListTargets (tgts : List String) : ExprList → List String
  | .nil => tgts
  | .cons e tl => extractListTargets (extractCallTarget tgts e) tl

end

/-- The parts collected by the while-loop of
SmellVisitor._get_decorator_name: outermost attribute first, ending with
the base name when the chain bottoms out at a Name. -/
def dottedParts : Expr → List String
  | .attribute v attr _ _ => attr :: dottedParts v
  | .name id _ => [id]
  | _ => []

/-- SmellVisitor._get_decorator_name. -/
def decoratorName : Expr → String
  | .name id _ => id
  | .attribute v attr c ln =>
      String.intercalate "." (dottedParts (Expr.attribute v attr c ln)).reverse
  | .call f _ _ => decoratorName f
  | _ => ""

/-- The skip decorator spellings recognized by _check_skip_decorator. -/
def skipDecoratorNames : List String :=
  ["skip", "skipif", "pytest.mark.skip", "pytest.mark.skipif",
   "unittest.skip", "unittest.skipIf", "unittest.skipUnless"]

/-- State of SmellVisitor: emitted issues, per-assert structural dumps and
message dumps, the distinct call-target set, and the skip flag. -/
structure SVState where
  issues : List Issue
  assertDumps : List (Nat × String)
  assertMsgs : List String
  callTargets : List String
  hasSkipMarker : Bool

mutual

/-- SmellVisitor traversal over an expression (visit_Call override plus
generic recursion). -/
def svExpr (cfg : SmellsConfig) (st : SVState) : Expr → SVState
  | .constant _ _ => st
  | .name _ _ => st
  | .attribute v _ _ _ => svExpr cfg st v
  | .subscript v s _ _ => svExpr cfg (svExpr cfg st v) s
  | .compare l pairs _ => svPairs cfg (svExpr cfg st l) pairs
  | .boolOp _ vs _ => svExprList cfg st vs
  | .unaryOp _ o _ => svExpr cfg st o
  | .call f args ln =>
      let st1 := if cfg.checkEagerTest then
          { st with callTargets := extractCallTarget st.callTargets (.call f args ln) }
        else st
      svExprList cfg (svExpr cfg st1 f) args
  | .ifExp t b e _ => svExpr cfg (svExpr cfg (svExpr cfg st t) b) e
  | .listComp elt gens _ => svComps cfg (svExpr cfg st elt) gens
  | .setComp elt gens _ => svComps cfg (svExpr cfg st elt) gens
  | .dictComp k v gens _ => svComps cfg (svExpr cfg (svExpr cfg st k) v) gens
  | .generatorExp elt gens _ => svComps cfg (svExpr cfg st elt) gens

/-- SmellVisitor traversal over an expression list. -/
def svExprList (cfg : SmellsConfig) (st : SVState) : ExprList → SVState
  | .nil => st
  | .cons e tl => svExprList cfg (svExpr cfg st e) tl

/-- SmellVisitor traversal over comparators. -/
def svPairs (cfg : SmellsConfig) (st : SVState) : CmpPairs → SVState
  | .nil => st
  | .cons _ cmp tl => svPairs cfg (svExpr cfg st cmp) tl

/-- SmellVisitor traversal over one comprehension clause. -/
def svComp (cfg : SmellsConfig) (st : SVState) : Comprehension → SVState
  | .mk target iter ifs => svExprList cfg (svExpr cfg (svExpr cfg st target) iter) ifs

/-- SmellVisitor traversal over comprehension clauses. -/
def svComps (cfg : SmellsConfig) (st : SVState) : CompList → SVState
  | .nil => st
  | .cons c tl => svComps cfg (svComp cfg st c) tl

end

/-- SmellVisitor traversal over an optional expression. -/
def svOptExpr (cfg : SmellsConfig) (st : SVState) : Option Expr → SVState
  | Option.none => st
  | Option.some e => svExpr cfg st e

mutual

/-- SmellVisitor traversal over a statement: visit_Assert records the
assert's dump and message, runs the per-assert magic-number check (first
offending constant in breadth-first walk order, at most one issue per
assert), extracts call targets from the condition, then recurses. -/
def svStmt (cfg : SmellsConfig) (st : SVState) : Stmt → SVState
  | .exprStmt v _ => svExpr cfg st v
  | .assign tgts v _ => svExpr cfg (tgts.foldl (svExpr cfg) st) v
  | .augAssign t v _ => svExpr cfg (svExpr cfg st t) v
  | .annAssign t v _ => svOptExpr cfg (svExpr cfg st t) v
  | .assertStmt test msg ln =>
      let st1 := { st with
        assertDumps := st.assertDumps ++ [(ln, Expr.dump test)],
        assertMsgs := st.assertMsgs ++
          [match msg with | Option.none => "" | Option.some m => Expr.dump m] }
      let st2 := if cfg.checkMagicNumbers then
          match (astWalk test).find? isMagicNode with
          | Option.some c =>
              { st1 with issues := st1.issues ++ [⟨"smells.magic_number", Severity.info, c.line⟩] }
          | Option.none => st1
        else st1
      let st3 := if cfg.checkEagerTest then
          { st2 with callTargets := extractCallTarget st2.callTargets test }
        else st2
      svOptExpr cfg (svExpr cfg st3 test) msg
  | .returnStmt v _ => svOptExpr cfg st v
  | .raiseStmt e _ => svOptExpr cfg st e
  | .passStmt _ => st
  | .breakStmt _ => st
  | .continueStmt _ => st
  | .globalStmt _ _ => st
  | .importStmt _ _ => st
  | .importFrom _ _ _ => st
  | .ifStmt t b o _ => svStmtList cfg (svStmtList cfg (svExpr cfg st t) b) o
  | .forStmt tg it b o _ =>
      svStmtList cfg (svStmtList cfg (svExpr cfg (svExpr cfg st tg) it) b) o
  | .whileStmt t b o _ => svStmtList cfg (svStmtList cfg (svExpr cfg st t) b) o
  | .withStmt c ov b _ => svStmtList cfg (svOptExpr cfg (svExpr cfg st c) ov) b
  | .tryStmt b hs o fb _ =>
      svStmtList cfg (svStmtList cfg (svHandlers cfg (svStmtList cfg st b) hs) o) fb

/-- SmellVisitor traversal over a statement list. -/
def svStmtList (cfg : SmellsConfig) (st : SVState) : StmtList → SVState
  | .nil => st
  | .cons s tl => svStmtList cfg (svStmt cfg st s) tl

/-- SmellVisitor traversal over one exception handler. -/
def svHandler (cfg : SmellsConfig) (st : SVState) : Handler → SVState
  | .mk typ _ body _ => svStmtList cfg (svOptExpr cfg st typ) body

/-- SmellVisitor traversal over exception handlers. -/
def svHandlers (cfg : SmellsConfig) (st : SVState) : HandlerList → SVState
  | .nil => st
  | .cons h tl => svHandlers cfg (svHandler cfg st h) tl

end

/-- The built-in and assertion-helper names excluded by _check_eager_test. -/
def eagerExcludedNames : List String :=
  ["len", "str", "int", "float", "list", "dict", "set", "tuple", "isinstance",
   "hasattr", "getattr", "type", "id", "repr", "sorted", "reversed",
   "enumerate", "zip", "map", "filter", "any", "all", "sum", "min", "max",
   "abs", "round", "assertTrue", "assertFalse", "assertEqual",
   "assertNotEqual", "assertIn", "assertNotIn", "assertIs", "assertIsNot",
   "assertIsNone", "assertIsNotNone", "assertRaises"]

/-- The duplicate scan of _check_duplicate_assertions: walk the asserts in
order, keeping the first occurrence of each dump and collecting later
repetitions. -/
def findDuplicates (seen : List String) (acc : List (Nat × String)) :
    List (Nat × String) → List (Nat × String)
  | [] => acc
  | (ln, d) :: tl =>
      if d ∈ seen then findDuplicates seen (acc ++ [(ln, d)]) tl
      else findDuplicates (seen ++ [d]) acc tl

/-- SmellVisitor._finalize_checks: assertion roulette, duplicate
assertions, and eager test, in that order. -/
def smellsFinalize (cfg : SmellsConfig) (f : FunctionDef) (st : SVState) : SVState :=
  let st1 :=
    if st.assertDumps.length ≤ 1 then st
    else
      let withoutMsg := (st.assertMsgs.filter (fun m => m = "")).length
      if (withoutMsg : Int) > cfg.maxAssertionsWithoutMessage then
        { st with issues := st.issues ++ [⟨"smells.assertion_roulette", Severity.warning, f.lineno⟩] }
      else st
  let dups := findDuplicates [] [] st1.assertDumps
  let st2 :=
    match dups with
    | [] => st1
    | (ln, _) :: _ =>
        { st1 with issues := st1.issues ++ [⟨"smells.duplicate_assert", Severity.warning, ln⟩] }
  if cfg.checkEagerTest then
    let distinct := st2.callTargets.filter (fun t => t ∉ eagerExcludedNames)
    if distinct.length > 2 then
      { st2 with issues := st2.issues ++ [⟨"smells.eager_test", Severity.info, f.lineno⟩] }
    else st2
  else st2

/-- SmellVisitor.visit_FunctionDef: skip-decorator check first, then the
generic walk over the function's fields (body, then decorator_list), then
the finalize-time checks. -/
def smellsVisit (cfg : SmellsConfig) (f : FunctionDef) : SVState :=
  let st0 : SVState := ⟨[], [], [], [], false⟩
  let st1 := f.decorators.foldl
    (fun st d =>
      if decoratorName d ∈ skipDecoratorNames then
        { st with hasSkipMarker := true,
                  issues := st.issues ++ [⟨"smells.ignored_test", Severity.warning, f.lineno⟩] }
      else st) st0
  let st2 := svStmtList cfg st1 f.body
  let st3 := f.decorators.foldl (svExpr cfg) st2
  smellsFinalize cfg f st3

/-- SmellsAnalyzer._analyze_ast: the issues of the smell visitor. -/
def smellsAnalyze (cfg : SmellsConfig) (f : FunctionDef) : List Issue :=
  (smellsVisit cfg f).issues

/-! ## Isolation Analyzer, static part (analyzers/isolation.py) -/

/-- Whether an identifier's first character is upper case (Python
name[0].isupper(), on the ASCII identifiers of the modelled subset). -/
def firstCharUpper (s : String) : Bool :=
  match s.data with
  | [] => false
  | c :: _ => c.isUpper

/-- Whether an identifier's first character is lower case. -/
def firstCharLower (s : String) : Bool :=
  match s.data with
  | [] => false
  | c :: _ => c.isLower

/-- The common class-reference patterns of GlobalModificationVisitor:
the name is cls, the (unreachable-by-parsing) literal self.__class__, or
starts with an upper-case letter. -/
def isClassRefName (n : String) : Bool :=
  n = "cls" || n = "self.__class__" || firstCharUpper n

/-- Methods that mutate mutable objects (GlobalModificationVisitor). -/
def mutatingMethods : List String :=
  ["append", "extend", "insert", "remove", "pop", "clear", "add", "discard",
   "update", "intersection_update", "difference_update",
   "symmetric_difference_update", "setdefault", "popitem"]

/-- State of GlobalModificationVisitor: global writes and class/module
attribute modifications, each as (line, description). -/
structure IVState where
  globalWrites : List (Nat × String)
  classAttrModifications : List (Nat × String)
deriving DecidableEq, Repr

mutual

/-- GlobalModificationVisitor traversal over an expression.  The
sysModules parameter models the interpreter's imported-module table
consulted by visit_Subscript (module_name in sys.modules). -/
def ivExpr (sysModules : List String) (st : IVState) : Expr → IVState
  | .constant _ _ => st
  | .name _ _ => st
  | .attribute v attr ctx ln =>
      let st1 :=
        match ctx, v with
        | .store, .name nm _ =>
            if isClassRefName nm then
              { st with classAttrModifications :=
                  st.classAttrModifications ++ [(ln, nm ++ "." ++ attr)] }
            else st
        | _, _ => st
      ivExpr sysModules st1 v
  | .subscript v s ctx ln =>
      let st1 :=
        match ctx, v with
        | .store, .attribute (.name moduleName _) attrName _ _ =>
            if moduleName ∈ sysModules || firstCharLower moduleName then
              { st with classAttrModifications :=
                  st.classAttrModifications ++
                    [(ln, moduleName ++ "." ++ attrName ++ "[...]")] }
            else st
        | _, _ => st
      ivExpr sysModules (ivExpr sysModules st1 v) s
  | .compare l pairs _ => ivPairs sysModules (ivExpr sysModules st l) pairs
  | .boolOp _ vs _ => ivExprList sysModules st vs
  | .unaryOp _ o _ => ivExpr sysModules st o
  | .call f args ln =>
      let st1 :=
        match f with
        | .attribute inner methodName _ _ =>
            if methodName ∈ mutatingMethods then
              match inner with
              | .attribute (.name nm _) midAttr _ _ =>
                  if isClassRefName nm then
                    { st with classAttrModifications :=
                        st.classAttrModifications ++
                          [(ln, nm ++ "." ++ midAttr ++ "." ++ methodName ++ "()")] }
                  else st
              | _ => st
            else st
        | _ => st
      ivExprList sysModules (ivExpr sysModules st1 f) args
  | .ifExp t b e _ =>
      ivExpr sysModules (ivExpr sysModules (ivExpr sysModules st t) b) e
  | .listComp elt gens _ => ivComps sysModules (ivExpr sysModules st elt) gens
  | .setComp elt gens _ => ivComps sysModules (ivExpr sysModules st elt) gens
  | .dictComp k v gens _ =>
      ivComps sysModules (ivExpr sysModules (ivExpr sysModules st k) v) gens
  | .generatorExp elt gens _ => ivComps sysModules (ivExpr sysModules st elt) gens

/-- GlobalModificationVisitor traversal over an expression list. -/
def ivExprList (sysModules : List String) (st : IVState) : ExprList → IVState
  | .nil => st
  | .cons e tl => ivExprList sysModules (ivExpr sysModules st e) tl

/-- GlobalModificationVisitor traversal over comparators. -/
def ivPairs (sysModules : List String) (st : IVState) : CmpPairs → IVState
  | .nil => st
  | .cons _ cmp tl => ivPairs sysModules (ivExpr sysModules st cmp) tl

/-- GlobalModificationVisitor traversal over one comprehension clause. -/
def ivComp (sysModules : List String) (st : IVState) : Comprehension → IVState
  | .mk target iter ifs =>
      ivExprList sysModules (ivExpr sysModules (ivExpr sysModules st target) iter) ifs

/-- GlobalModificationVisitor traversal over comprehension clauses. -/
def ivComps (sysModules : List String) (st : IVState) : CompList → IVState
  | .nil => st
  | .cons c tl => ivComps sysModules (ivComp sysModules st c) tl

end

/-- GlobalModificationVisitor traversal over an optional expression. -/
def ivOptExpr (sysModules : List String) (st : IVState) : Option Expr → IVState
  | Option.none => st
  | Option.some e => ivExpr sysModules st e

mutual

/-- GlobalModificationVisitor traversal over a statement: visit_Global
records one write per declared name; everything else is walked
generically. -/
def ivStmt (sysModules : List String) (st : IVState) : Stmt → IVState
  | .exprStmt v _ => ivExpr sysModules st v
  | .assign tgts v _ => ivExpr sysModules (tgts.foldl (ivExpr sysModules) st) v
  | .augAssign t v _ => ivExpr sysModules (ivExpr sysModules st t) v
  | .annAssign t v _ => ivOptExpr sysModules (ivExpr sysModules st t) v
  | .assertStmt test msg _ => ivOptExpr sysModules (ivExpr sysModules st test) msg
  | .returnStmt v _ => ivOptExpr sysModules st v
  | .raiseStmt e _ => ivOptExpr sysModules st e
  | .passStmt _ => st
  | .breakStmt _ => st
  | .continueStmt _ => st
  | .globalStmt names ln =>
      names.foldl (fun acc n => { acc with globalWrites := acc.globalWrites ++ [(ln, n)] }) st
  | .importStmt _ _ => st
  | .importFrom _ _ _ => st
  | .ifStmt t b o _ =>
      ivStmtList sysModules (ivStmtList sysModules (ivExpr sysModules st t) b) o
  | .forStmt tg it b o _ =>
      ivStmtList sysModules
        (ivStmtList sysModules (ivExpr sysModules (ivExpr sysModules st tg) it) b) o
  | .whileStmt t b o _ =>
      ivStmtList sysModules (ivStmtList sysModules (ivExpr sysModules st t) b) o
  | .withStmt c ov b _ =>
      ivStmtList sysModules (ivOptExpr sysModules (ivExpr sysModules st c) ov) b
  | .tryStmt b hs o fb _ =>
      ivStmtList sysModules
        (ivStmtList sysModules
          (ivHandlers sysModules (ivStmtList sysModules st b) hs) o) fb

/-- GlobalModificationVisitor traversal over a statement list. -/
def ivStmtList (sysModules : List String) (st : IVState) : StmtList → IVState
  | .nil => st
  | .cons s tl => ivStmtList sysModules (ivStmt sysModules st s) tl

/-- GlobalModificationVisitor traversal over one exception handler. -/
def ivHandler (sysModules : List String) (st : IVState) : Handler → IVState
  | .mk typ _ body _ => ivStmtList sysModules (ivOptExpr sysModules st typ) body

/-- GlobalModificationVisitor traversal over exception handlers. -/
def ivHandlers (sysModules : List String) (st : IVState) : HandlerList → IVState
  | .nil => st
  | .cons h tl => ivHandlers sysModules (ivHandler sysModules st h) tl

end

/-- Run GlobalModificationVisitor on a test function (generic walk:
body, then decorator_list). -/
def ivRun (sysModules : List String) (f : FunctionDef) : IVState :=
  f.decorators.foldl (ivExpr sysModules) (ivStmtList sysModules ⟨[], []⟩ f.body)

/-- IsolationStaticAnalyzer._analyze_ast: one warning per global write,
then one warning per class/module attribute modification. -/
def isolationAnalyze (sysModules : List String) (f : FunctionDef) : List Issue :=
  let v := ivRun sysModules f
  v.globalWrites.map (fun p => ⟨"isolation.global_modification", Severity.warning, p.1⟩)
  ++ v.classAttrModifications.map
      (fun p => ⟨"isolation.class_attr_modification", Severity.warning, p.1⟩)

/-! ## Anti-Pattern Analyzer (analyzers/patterns.py) -/

/-- Whether one character sequence occurs inside another, at any position
(Python's `needle in hay` substring test, over the character lists of the
two strings). -/
def containsSeq (needle : List Char) : List Char → Bool
  | [] => needle.isEmpty
  | c :: rest => List.isPrefixOf needle (c :: rest) || containsSeq needle rest

/-- Whether a string is contained in another (Python substring test). -/
def strContainsSub (hay needle : String) : Bool :=
  containsSeq needle.data hay.data

/-- The hardcoded-path issues of PatternVisitor.visit_Constant for one
string constant: absolute unix-like paths over a known-directory list,
else Windows drive-letter paths.  The Python string operations
(startswith, len, `in`, slicing, lower) are modelled over the string's
character list. -/
def hardcodedPathIssues (s : String) (ln : Nat) : List Issue :=
  if List.isPrefixOf "/".data s.data && decide (s.data.length > 5) &&
      (s.data.drop 1).contains '/' then
    if ["/home/", "/users/", "/tmp/", "/var/", "/etc/"].any
        (fun p => containsSeq p.data (s.data.map Char.toLower)) then
      [⟨"patterns.hardcoded_path", Severity.warning, ln⟩]
    else []
  else if decide (s.data.length > 3) && ((s.data.drop 1).take 2 = ":\\".data) then
    [⟨"patterns.hardcoded_path", Severity.warning, ln⟩]
  else []

/-- The operand test of PatternVisitor.visit_Compare: a literal constant
whose Python type is int/str/float (bools are ints) and whose value is not
equal (by Python ==) to True, False or None. -/
def isLiteralForIs : Expr → Bool
  | .constant v _ =>
      (match v with
       | .int _ => true
       | .bool _ => true
       | .str _ => true
       | .none => false) &&
      !(v.pyEqInt 1 || v.pyEqInt 0 || v = Const.none)
  | _ => false

/-- The issue-emitting loop of PatternVisitor.visit_Compare: for each
is/is-not operator, check the left operand of that operator then its
comparator, emitting at most one issue per operator. -/
def patternsCompareOwn (prev : Expr) (pairs : List (Cmpop × Expr)) (ln : Nat) : List Issue :=
  match pairs with
  | [] => []
  | (op, cmp) :: rest =>
      (if op = Cmpop.isCmp ∨ op = Cmpop.isNotCmp then
        (if isLiteralForIs prev then [⟨"patterns.is_literal", Severity.warning, ln⟩]
         else if isLiteralForIs cmp then [⟨"patterns.is_literal", Severity.warning, ln⟩]
         else [])
      else []) ++ patternsCompareOwn cmp rest ln

/-- The issues PatternVisitor.visit_Call emits for one Call node, in
source order: time.sleep, print, open, os.system. -/
def patternsCallOwn (f : Expr) (ln : Nat) : List Issue :=
  (match f with
   | .attribute (.name "time" _) "sleep" _ _ =>
       [⟨"patterns.sleep_in_test", Severity.warning, ln⟩]
   | _ => []) ++
  (match f with
   | .name "print" _ => [⟨"patterns.print_statement", Severity.info, ln⟩]
   | _ => []) ++
  (match f with
   | .name "open" _ => [⟨"patterns.open_without_context", Severity.info, ln⟩]
   | _ => []) ++
  (match f with
   | .attribute (.name "os" _) "system" _ _ =>
       [⟨"patterns.os_system", Severity.info, ln⟩]
   | _ => [])

mutual

/-- PatternVisitor traversal over an expression: the visit_Call,
visit_Constant and visit_Compare overrides plus generic recursion. -/
def pvExpr (st : List Issue) : Expr → List Issue
  | .constant v ln =>
      match v with
      | .str s => st ++ hardcodedPathIssues s ln
      | _ => st
  | .name _ _ => st
  | .attribute v _ _ _ => pvExpr st v
  | .subscript v s _ _ => pvExpr (pvExpr st v) s
  | .compare l pairs ln =>
      pvPairs (pvExpr (st ++ patternsCompareOwn l pairs.toList ln) l) pairs
  | .boolOp _ vs _ => pvExprList st vs
  | .unaryOp _ o _ => pvExpr st o
  | .call f args ln => pvExprList (pvExpr (st ++ patternsCallOwn f ln) f) args
  | .ifExp t b e _ => pvExpr (pvExpr (pvExpr st t) b) e
  | .listComp elt gens _ => pvComps (pvExpr st elt) gens
  | .setComp elt gens _ => pvComps (pvExpr st elt) gens
  | .dictComp k v gens _ => pvComps (pvExpr (pvExpr st k) v) gens
  | .generatorExp elt gens _ => pvComps (pvExpr st elt) gens

/-- PatternVisitor traversal over an expression list. -/
def pvExprList (st : List Issue) : ExprList → List Issue
  | .nil => st
  | .cons e tl => pvExprList (pvExpr st e) tl

/-- PatternVisitor traversal over comparators. -/
def pvPairs (st : List Issue) : CmpPairs → List Issue
  | .nil => st
  | .cons _ cmp tl => pvPairs (pvExpr st cmp) tl

/-- PatternVisitor traversal over one comprehension clause. -/
def pvComp (st : List Issue) : Comprehension → List Issue
  | .mk target iter ifs => pvExprList (pvExpr (pvExpr st target) iter) ifs

/-- PatternVisitor traversal over comprehension clauses. -/
def pvComps (st : List Issue) : CompList → List Issue
  | .nil => st
  | .cons c tl => pvComps (pvComp st c) tl

end

/-- PatternVisitor traversal over an optional expression. -/
def pvOptExpr (st : List Issue) : Option Expr → List Issue
  | Option.none => st
  | Option.some e => pvExpr st e

mutual

/-- PatternVisitor traversal over a statement, with the visit_Import and
visit_ImportFrom overrides (legacy mock imports). -/
def pvStmt (st : List Issue) : Stmt → List Issue
  | .exprStmt v _ => pvExpr st v
  | .assign tgts v _ => pvExpr (tgts.foldl pvExpr st) v
  | .augAssign t v _ => pvExpr (pvExpr st t) v
  | .annAssign t v _ => pvOptExpr (pvExpr st t) v
  | .assertStmt test msg _ => pvOptExpr (pvExpr st test) msg
  | .returnStmt v _ => pvOptExpr st v
  | .raiseStmt e _ => pvOptExpr st e
  | .passStmt _ => st
  | .breakStmt _ => st
  | .continueStmt _ => st
  | .globalStmt _ _ => st
  | .importStmt names ln =>
      st ++ (names.filter (fun n => n = "mock")).map
        (fun _ => ⟨"patterns.legacy_mock", Severity.info, ln⟩)
  | .importFrom module _ ln =>
      st ++ (if module = Option.some "mock" then
        [⟨"patterns.legacy_mock", Severity.info, ln⟩] else [])
  | .ifStmt t b o _ => pvStmtList (pvStmtList (pvExpr st t) b) o
  | .forStmt tg it b o _ => pvStmtList (pvStmtList (pvExpr (pvExpr st tg) it) b) o
  | .whileStmt t b o _ => pvStmtList (pvStmtList (pvExpr st t) b) o
  | .withStmt c ov b _ => pvStmtList (pvOptExpr (pvExpr st c) ov) b
  | .tryStmt b hs o fb _ =>
      pvStmtList (pvStmtList (pvHandlers (pvStmtList st b) hs) o) fb

/-- PatternVisitor traversal over a statement list. -/
def pvStmtList (st : List Issue) : StmtList → List Issue
  | .nil => st
  | .cons s tl => pvStmtList (pvStmt st s) tl

/-- PatternVisitor.visit_ExceptHandler: bare except, and a generic
Exception handler whose body is a single pass; both can fire. -/
def pvHandler (st : List Issue) : Handler → List Issue
  | .mk typ _ body ln =>
      let st1 := st ++
        (match typ with
         | Option.none => [⟨"patterns.bare_except", Severity.warning, ln⟩]
         | Option.some _ => []) ++
        (match typ, body with
         | Option.some (.name "Exception" _), .cons (.passStmt _) .nil =>
             [⟨"patterns.swallowed_exception", Severity.warning, ln⟩]
         | _, _ => [])
      pvStmtList (pvOptExpr st1 typ) body

/-- PatternVisitor traversal over exception handlers. -/
def pvHandlers (st : List Issue) : HandlerList → List Issue
  | .nil => st
  | .cons h tl => pvHandlers (pvHandler st h) tl

end

/-- Run PatternVisitor on a test function and collect its issues
(PatternsAnalyzer._analyze_ast re-emits them in order). -/
def patternsAnalyze (f : FunctionDef) : List Issue :=
  f.decorators.foldl pvExpr (pvStmtList [] f.body)

/-! ## Scoring Engine (scoring.py)

Python float scores are modelled over the rationals; every constant
involved (weights, penalties, thresholds) is exactly representable. -/

/-- Score for a single category (scoring.py, CategoryScore). -/
structure CategoryScore where
  name : String
  weight : ℚ
  raw_score : ℚ := 100
  weighted_score : ℚ := 0
  issue_count : Nat := 0
deriving DecidableEq, Repr

/-- Complete score breakdown (scoring.py, ScoreBreakdown), with the
dataclass defaults. -/
structure ScoreBreakdown where
  total_score : ℚ := 100
  grade : String := "A"
  categories : List CategoryScore := []
  penalties : List (String × ℚ) := []
  total_tests : Nat := 0
  total_issues : Nat := 0
  error_count : Nat := 0
  warning_count : Nat := 0
  info_count : Nat := 0
deriving DecidableEq, Repr

/-- ScoringEngine.CATEGORY_WEIGHTS, in dict insertion order. -/
def categoryWeights : List (String × ℚ) :=
  [("assertions", 3/10), ("clarity", 1/4), ("isolation", 1/5),
   ("simplicity", 3/20), ("performance", 1/10)]

/-- ScoringEngine.ANALYZER_CATEGORIES as a lookup. -/
def analyzerCategory (nm : String) : Option String :=
  if nm = "assertions" then Option.some "assertions"
  else if nm = "naming" then Option.some "clarity"
  else if nm = "isolation" then Option.some "isolation"
  else if nm = "isolation_runtime" then Option.some "isolation"
  else if nm = "complexity" then Option.some "simplicity"
  else if nm = "patterns" then Option.some "simplicity"
  else if nm = "performance" then Option.some "performance"
  else if nm = "smells" then Option.some "clarity"
  else Option.none

/-- ScoringEngine.SEVERITY_PENALTIES (the .get default 0 is unreachable:
every severity is in the table). -/
def severityPenalty : Severity → ℚ
  | .error => 15
  | .warning => 5
  | .info => 1

/-- ScoringEngine.CRITICAL_PENALTIES as a lookup. -/
def criticalPenalty (rule : String) : Option ℚ :=
  if rule = "assertions.missing" then Option.some 20
  else if rule = "assertions.trivial" then Option.some 10
  else Option.none

/-- One result's contribution to a category's issue list in
ScoringEngine._group_by_category: its issues when its analyzer maps to that
category, nothing otherwise. -/
def resultCatIssues (cat : String) (r : AnalyzerResult) : List Issue :=
  match analyzerCategory r.analyzerName with
  | Option.some c => if c = cat then r.issues else []
  | Option.none => []

/-- ScoringEngine._group_by_category, restricted to one category: all the
issues of results whose analyzer maps to that category, in result order. -/
def categoryIssues (results : List AnalyzerResult) (cat : String) : List Issue :=
  results.foldl (fun acc r => acc ++ resultCatIssues cat r) []

/-- The severity-penalty total of an issue list, as summed by
_calculate_category_score's loop. -/
def sevSum (issues : List Issue) : ℚ :=
  (issues.map (fun i => severityPenalty i.severity)).sum

/-- ScoringEngine._calculate_category_score. -/
def calcCategoryScore (nm : String) (weight : ℚ) (issues : List Issue)
    (totalTests : Nat) : CategoryScore :=
  let raw : ℚ :=
    if issues.isEmpty then 100
    else
      let normalizedPenalty := if totalTests > 0 then sevSum issues / totalTests else 0
      max 0 (100 - normalizedPenalty)
  { name := nm, weight := weight, raw_score := raw,
    weighted_score := raw * weight, issue_count := issues.length }

/-- One issue's contribution to the critical-penalty list: its (rule,
amount) entry when its rule is in CRITICAL_PENALTIES. -/
def issueCrit (i : Issue) : List (String × ℚ) :=
  match criticalPenalty i.rule with
  | Option.some p => [(i.rule, p)]
  | Option.none => []

/-- The critical-penalty pass of calculate_score: one (rule, amount) entry
per issue whose rule is in CRITICAL_PENALTIES, in issue order. -/
def criticalPenalties (results : List AnalyzerResult) : List (String × ℚ) :=
  results.foldl
    (fun acc r => r.issues.foldl (fun acc2 i => acc2 ++ issueCrit i) acc) []

/-- ScoringEngine._score_to_grade. -/
def scoreToGrade (score : ℚ) : String :=
  if score ≥ 90 then "A"
  else if score ≥ 80 then "B"
  else if score ≥ 70 then "C"
  else if score ≥ 60 then "D"
  else "F"

/-- ScoringEngine.calculate_score: early return for a zero test count,
otherwise severity counts, the five category scores, critical penalties,
and the clamped weighted total. -/
def calculate_score (results : List AnalyzerResult) (totalTests : Nat) : ScoreBreakdown :=
  if totalTests = 0 then
    { total_tests := totalTests, grade := "A" }
  else
    let issues := results.foldl (fun acc r => acc ++ r.issues) []
    let categories := categoryWeights.map
      (fun p => calcCategoryScore p.1 p.2 (categoryIssues results p.1) totalTests)
    let penalties := criticalPenalties results
    let weightedSum := (categories.map (fun c => c.weighted_score)).sum
    let totalPenalty := (penalties.map (fun p => p.2)).sum
    let total := max 0 (min 100 (weightedSum - totalPenalty))
    { total_score := total
      grade := scoreToGrade total
      categories := categories
      penalties := penalties
      total_tests := totalTests
      total_issues := issues.length
      error_count := (issues.filter (fun i => i.severity = Severity.error)).length
      warning_count := (issues.filter (fun i => i.severity = Severity.warning)).length
      info_count := (issues.filter (fun i => i.severity = Severity.info)).length }

/-- ScoringEngine.get_simple_score. -/
def get_simple_score (results : List AnalyzerResult) (totalTests : Nat) : ℚ :=
  (calculate_score results totalTests).total_score

/-! ### Scoring helper lemmas -/

theorem foldl_append_acc {α β : Type} (g : α → List β) (l : List α) :
    ∀ acc : List β,
      l.foldl (fun a x => a ++ g x) acc = acc ++ l.foldl (fun a x => a ++ g x) [] := by
  induction l with
  | nil => intro acc; simp
  | cons x tl ih =>
      intro acc
      simp only [List.foldl_cons]
      rw [ih (acc ++ g x), ih (List.nil ++ g x)]
      simp [List.append_assoc]

theorem categoryIssues_nil (cat : String) : categoryIssues [] cat = [] := rfl

theorem categoryIssues_cons (r : AnalyzerResult) (rs : List AnalyzerResult) (cat : String) :
    categoryIssues (r :: rs) cat = resultCatIssues cat r ++ categoryIssues rs cat := by
  simp only [categoryIssues, List.foldl_cons]
  rw [foldl_append_acc]
  simp

theorem categoryIssues_append (a b : List AnalyzerResult) (cat : String) :
    categoryIssues (a ++ b) cat = categoryIssues a cat ++ categoryIssues b cat := by
  induction a with
  | nil => simp [categoryIssues_nil, categoryIssues]
  | cons r tl ih => simp [categoryIssues_cons, ih]

/-- The inner critical-penalty loop over one issue list, started empty. -/
def issuesCrit (l : List Issue) : List (String × ℚ) :=
  l.foldl (fun a i => a ++ issueCrit i) []

theorem issuesCrit_cons (i : Issue) (l : List Issue) :
    issuesCrit (i :: l) = issueCrit i ++ issuesCrit l := by
  simp only [issuesCrit, List.foldl_cons]
  rw [foldl_append_acc]
  simp

theorem issuesCrit_append (a b : List Issue) :
    issuesCrit (a ++ b) = issuesCrit a ++ issuesCrit b := by
  induction a with
  | nil => simp [issuesCrit]
  | cons i tl ih => simp [issuesCrit_cons, ih]

theorem criticalPenalties_acc (rs : List AnalyzerResult) :
    ∀ acc,
      rs.foldl (fun acc r => r.issues.foldl (fun a i => a ++ issueCrit i) acc) acc =
        acc ++ rs.foldl (fun acc r => r.issues.foldl (fun a i => a ++ issueCrit i) acc) [] := by
  induction rs with
  | nil => intro acc; simp
  | cons r tl ih =>
      intro acc
      simp only [List.foldl_cons]
      rw [ih, foldl_append_acc, ih (List.foldl _ List.nil r.issues),
        foldl_append_acc (fun i => issueCrit i) r.issues List.nil]
      simp [List.append_assoc]

theorem criticalPenalties_cons (r : AnalyzerResult) (rs : List AnalyzerResult) :
    criticalPenalties (r :: rs) = issuesCrit r.issues ++ criticalPenalties rs := by
  simp only [criticalPenalties, List.foldl_cons]
  rw [criticalPenalties_acc, foldl_append_acc]
  rfl

theorem criticalPenalties_append (a b : List AnalyzerResult) :
    criticalPenalties (a ++ b) = criticalPenalties a ++ criticalPenalties b := by
  induction a with
  | nil => simp [criticalPenalties]
  | cons r tl ih => simp [criticalPenalties_cons, ih]

theorem countRule_append (a b : List Issue) (r : String) :
    countRule (a ++ b) r = countRule a r + countRule b r := by
  simp [countRule, List.filter_append]

theorem sevSum_append (a b : List Issue) : sevSum (a ++ b) = sevSum a + sevSum b := by
  simp [sevSum]

theorem severityPenalty_nonneg (s : Severity) : 0 ≤ severityPenalty s := by
  cases s <;> norm_num [severityPenalty]

theorem sevSum_nonneg (l : List Issue) : 0 ≤ sevSum l := by
  refine List.sum_nonneg ?_
  intro x hx
  obtain ⟨i, _, rfl⟩ := List.mem_map.mp hx
  exact severityPenalty_nonneg _

theorem criticalPenalty_nonneg (r : String) (p : ℚ) (h : criticalPenalty r = Option.some p) :
    0 ≤ p := by
  unfold criticalPenalty at h
  split_ifs at h <;> simp_all <;> norm_num [← h]

theorem issueCrit_nonneg (i : Issue) : ∀ q ∈ issueCrit i, 0 ≤ q.2 := by
  intro q hq
  unfold issueCrit at hq
  split at hq
  case _ p hp =>
    simp only [List.mem_singleton] at hq
    subst hq
    exact criticalPenalty_nonneg _ _ hp
  case _ => simp at hq

theorem issuesCrit_nonneg (l : List Issue) : ∀ q ∈ issuesCrit l, 0 ≤ q.2 := by
  induction l with
  | nil => intro q hq; simp [issuesCrit] at hq
  | cons i tl ih =>
      intro q hq
      rw [issuesCrit_cons, List.mem_append] at hq
      rcases hq with hq | hq
      · exact issueCrit_nonneg i q hq
      · exact ih q hq

theorem criticalPenalties_mem_nonneg (results : List AnalyzerResult) :
    ∀ q ∈ criticalPenalties results, 0 ≤ q.2 := by
  induction results with
  | nil => intro q hq; simp [criticalPenalties] at hq
  | cons r tl ih =>
      intro q hq
      rw [criticalPenalties_cons, List.mem_append] at hq
      rcases hq with hq | hq
      · exact issuesCrit_nonneg _ q hq
      · exact ih q hq

theorem criticalPenalties_sum_nonneg (results : List AnalyzerResult) :
    0 ≤ ((criticalPenalties results).map (fun p => p.2)).sum := by
  refine List.sum_nonneg ?_
  intro x hx
  obtain ⟨q, hq, rfl⟩ := List.mem_map.mp hx
  exact criticalPenalties_mem_nonneg results q hq

theorem calcCategoryScore_raw_le (nm : String) (w : ℚ) (issues : List Issue) (n : Nat) :
    (calcCategoryScore nm w issues n).raw_score ≤ 100 := by
  simp only [calcCategoryScore]
  split
  · exact le_refl _
  · refine max_le (by norm_num) ?_
    have hnorm : 0 ≤ (if n > 0 then sevSum issues / n else 0) := by
      split
      · exact div_nonneg (sevSum_nonneg issues) (by positivity)
      · exact le_refl 0
    linarith

theorem calcCategoryScore_raw_nonneg (nm : String) (w : ℚ) (issues : List Issue) (n : Nat) :
    0 ≤ (calcCategoryScore nm w issues n).raw_score := by
  simp only [calcCategoryScore]
  split
  · norm_num
  · exact le_max_left 0 _

theorem weightedSum_le_100 (results : List AnalyzerResult) (n : Nat) :
    ((categoryWeights.map
        (fun p => calcCategoryScore p.1 p.2 (categoryIssues results p.1) n)).map
      (fun c => c.weighted_score)).sum ≤ 100 := by
  rw [List.map_map]
  have hle :
      ((categoryWeights.map
        ((fun c => c.weighted_score) ∘
          fun p => calcCategoryScore p.1 p.2 (categoryIssues results p.1) n))).sum ≤
      (categoryWeights.map (fun p => (100 : ℚ) * p.2)).sum := by
    refine List.sum_le_sum ?_
    intro p hp
    have hw : 0 ≤ p.2 := by
      fin_cases hp <;> norm_num
    have hraw := calcCategoryScore_raw_le p.1 p.2 (categoryIssues results p.1) n
    simp only [Function.comp_apply, calcCategoryScore]
    exact mul_le_mul_of_nonneg_right hraw hw
  have heq : (categoryWeights.map (fun p => (100 : ℚ) * p.2)).sum = 100 := by
    norm_num [categoryWeights]
  linarith

/-! ## Concrete test functions used by the claims -/

/-- The expression `n == n` with both operands the same integer literal. -/
def intEqSelf (n : Int) (ln : Nat) : Expr :=
  .compare (.constant (.int n) ln) (.cons .eq (.constant (.int n) ln) .nil) ln

/-- A test function whose body is exactly
`assert 1==1; assert 2==2; assert 3==3`, with no assertion messages. -/
def threeAssertTest (nm : String) (fl l1 l2 l3 : Nat) : FunctionDef :=
  { fname := nm, decorators := [],
    body := .cons (.assertStmt (intEqSelf 1 l1) Option.none l1)
      (.cons (.assertStmt (intEqSelf 2 l2) Option.none l2)
        (.cons (.assertStmt (intEqSelf 3 l3) Option.none l3) .nil)),
    lineno := fl }

/-- A test function whose body is exactly `assert 1`. -/
def assertIntOneTest : FunctionDef :=
  { fname := "test_truthy", decorators := [],
    body := .cons (.assertStmt (.constant (.int 1) 2) Option.none 2) .nil,
    lineno := 1 }

/-- A test function whose body is exactly `assert not False`. -/
def assertNotFalseTest : FunctionDef :=
  { fname := "test_not_false", decorators := [],
    body := .cons
      (.assertStmt (.unaryOp .notOp (.constant (.bool false) 2) 2) Option.none 2)
      .nil,
    lineno := 1 }

/-- A test function whose body is a single if/elif chain with one elif
(`if x: pass elif y: pass`). -/
def ifElifTest : FunctionDef :=
  { fname := "test_branches", decorators := [],
    body := .cons
      (.ifStmt (.name "x" 2) (.cons (.passStmt 3) .nil)
        (.cons (.ifStmt (.name "y" 4) (.cons (.passStmt 5) .nil) .nil 4) .nil) 2)
      .nil,
    lineno := 1 }

/-- A test function whose body is exactly `<base>.<attr> = 1`. -/
def attrAssignTest (base attr nm : String) (fl sl : Nat) : FunctionDef :=
  { fname := nm, decorators := [],
    body := .cons
      (.assign [.attribute (.name base sl) attr .store sl] (.constant (.int 1) sl) sl)
      .nil,
    lineno := fl }

/-- A test function whose body is exactly the expression statement `x is 1`. -/
def isOneTest : FunctionDef :=
  { fname := "test_is_one", decorators := [],
    body := .cons
      (.exprStmt (.compare (.name "x" 2) (.cons .isCmp (.constant (.int 1) 2) .nil) 2) 2)
      .nil,
    lineno := 1 }

/-- A test function whose body is exactly the chained identity comparison
`"a" is "b" is "c"`. -/
def isChainTest : FunctionDef :=
  { fname := "test_is_chain", decorators := [],
    body := .cons
      (.exprStmt (.compare (.constant (.str "a") 2)
        (.cons .isCmp (.constant (.str "b") 2)
          (.cons .isCmp (.constant (.str "c") 2) .nil)) 2) 2)
      .nil,
    lineno := 1 }

/-- A test function whose body is exactly `pass`. -/
def passOnlyTest : FunctionDef :=
  { fname := "test_nothing", decorators := [],
    body := .cons (.passStmt 2) .nil,
    lineno := 1 }

/-- A test function whose body is exactly `assert x == y` for the distinct
names x and y. -/
def assertXYTest : FunctionDef :=
  { fname := "test_xy", decorators := [],
    body := .cons
      (.assertStmt (.compare (.name "x" 2) (.cons .eq (.name "y" 2) .nil) 2)
        Option.none 2)
      .nil,
    lineno := 1 }

/-- Counting issues of a mapped list with one fixed rule. -/
theorem countRule_map_const {α : Type} (l : List α) (ru : String) (sev : Severity)
    (lnOf : α → Nat) (r : String) :
    countRule (l.map (fun a => ⟨ru, sev, lnOf a⟩)) r =
      if ru = r then l.length else 0 := by
  simp only [countRule, List.filter_map, List.length_map]
  by_cases h : ru = r
  · subst h
    simp [Function.comp_def]
  · simp [Function.comp_def, h]

/-! ## Claims -/

/-- C3: a test with zero total assertions (direct asserts plus pytest
helper calls) gets exactly one assertions.missing issue and no
assertions.insufficient issue; a test with total at or above the
configured minimum gets no assertions.insufficient issue; a test with
0 < total < minimum gets exactly one assertions.insufficient issue. -/
theorem c3_missing_and_insufficient (minA : Int) (f : FunctionDef) :
    (avTotal f = 0 →
      countRule (assertionsAnalyze minA f) "assertions.missing" = 1 ∧
      countRule (assertionsAnalyze minA f) "assertions.insufficient" = 0) ∧
    (minA ≤ (avTotal f : Int) →
      countRule (assertionsAnalyze minA f) "assertions.insufficient" = 0) ∧
    (0 < avTotal f → (avTotal f : Int) < minA →
      countRule (assertionsAnalyze minA f) "assertions.insufficient" = 1) := by
  simp only [avTotal, assertionsAnalyze]
  refine ⟨?_, ?_, ?_⟩
  · intro h0
    rw [if_pos h0, countRule_append, countRule_append, countRule_map_const,
      countRule_map_const]
    simp [countRule]
  · intro hge
    by_cases h0 : (avRun f).assertions.length + (avRun f).pytestAssertions.length = 0
    · rw [if_pos h0, countRule_append, countRule_map_const]
      simp [countRule]
    · rw [if_neg h0, if_neg (by omega), countRule_append, countRule_map_const]
      simp [countRule]
  · intro hpos hlt
    rw [if_neg (by omega), if_pos hlt, countRule_append, countRule_map_const]
    simp [countRule]

/-- Witness for C3 at concrete inputs: a pass-only test raises exactly one
missing issue and no insufficient issue; a test with one assert meets the
default minimum of 1; with minimum 2 it is insufficient. -/
theorem c3_missing_and_insufficient_witness :
    (countRule (assertionsAnalyze 1 passOnlyTest) "assertions.missing" = 1 ∧
      countRule (assertionsAnalyze 1 passOnlyTest) "assertions.insufficient" = 0) ∧
    countRule (assertionsAnalyze 1 assertXYTest) "assertions.insufficient" = 0 ∧
    countRule (assertionsAnalyze 2 assertXYTest) "assertions.insufficient" = 1 :=
  ⟨(c3_missing_and_insufficient 1 passOnlyTest).1 (by decide),
   (c3_missing_and_insufficient 1 assertXYTest).2.1 (by decide),
   (c3_missing_and_insufficient 2 assertXYTest).2.2 (by decide) (by decide)⟩

/-- C7 (amended): the measured cyclomatic complexity is 1 plus the
compositional contribution in which each if contributes 1 plus one more per
direct If statement in its orelse — so a chained elif, itself an If node,
contributes 2 in total — plus 1 per for/while, 1 per exception handler,
(operand count − 1) per boolean-operator chain, 1 per ternary, and 1 per
comprehension generator clause plus 1 per filter condition. -/
theorem c7_cyclomatic_formula (f : FunctionDef) :
    (cvRun f).cyclomaticComplexity = 1 + ccFunctionDef f :=
  cvRun_cc f

/-- Counterexample to C7 as stated: the single if/elif chain with one elif
measures cyclomatic complexity 4, not 3. -/
theorem c7_if_elif_counterexample :
    (cvRun ifElifTest).cyclomaticComplexity = 4 ∧
    (cvRun ifElifTest).cyclomaticComplexity ≠ 3 := by decide

/-- C8: `self.value = 1` in a test body produces no
isolation.class_attr_modification issue, while `cls.value = 1` and
`<UpperName>.value = 1` each produce exactly one. -/
theorem c8_class_attr_modification :
    (∀ (sysMods : List String) (attr nm : String) (fl sl : Nat),
      countRule (isolationAnalyze sysMods (attrAssignTest "self" attr nm fl sl))
        "isolation.class_attr_modification" = 0) ∧
    (∀ (sysMods : List String) (attr nm : String) (fl sl : Nat),
      countRule (isolationAnalyze sysMods (attrAssignTest "cls" attr nm fl sl))
        "isolation.class_attr_modification" = 1) ∧
    (∀ (sysMods : List String) (cname attr nm : String) (fl sl : Nat),
      firstCharUpper cname = true →
      countRule (isolationAnalyze sysMods (attrAssignTest cname attr nm fl sl))
        "isolation.class_attr_modification" = 1) := by
  refine ⟨?_, ?_, ?_⟩ <;>
    intro sysMods
  · intro attr nm fl sl
    simp [attrAssignTest, isolationAnalyze, ivRun, ivStmtList, ivStmt, ivExpr,
      isClassRefName, firstCharUpper, countRule]
  · intro attr nm fl sl
    simp [attrAssignTest, isolationAnalyze, ivRun, ivStmtList, ivStmt, ivExpr,
      isClassRefName, countRule]
  · intro cname attr nm fl sl hup
    simp [attrAssignTest, isolationAnalyze, ivRun, ivStmtList, ivStmt, ivExpr,
      isClassRefName, hup, countRule]

/-- Witness for C8 at concrete inputs. -/
theorem c8_class_attr_modification_witness :
    countRule (isolationAnalyze [] (attrAssignTest "self" "value" "test_a" 1 2))
      "isolation.class_attr_modification" = 0 ∧
    countRule (isolationAnalyze [] (attrAssignTest "cls" "value" "test_b" 1 2))
      "isolation.class_attr_modification" = 1 ∧
    countRule (isolationAnalyze [] (attrAssignTest "MyClass" "value" "test_c" 1 2))
      "isolation.class_attr_modification" = 1 :=
  ⟨c8_class_attr_modification.1 [] "value" "test_a" 1 2,
   c8_class_attr_modification.2.1 [] "value" "test_b" 1 2,
   c8_class_attr_modification.2.2 [] "MyClass" "value" "test_c" 1 2 (by decide)⟩

theorem countRule_of_all (l : List Issue) (r : String) (h : ∀ i ∈ l, i.rule = r) :
    countRule l r = l.length := by
  induction l with
  | nil => simp [countRule]
  | cons i tl ih =>
      simp only [countRule, List.filter_cons] at ih ⊢
      rw [if_pos (by simp [h i (by simp)])]
      simp only [List.length_cons]
      rw [ih (fun j hj => h j (by simp [hj]))]

/-- C2 (amended): the Assertions analyzer emits exactly one
assertions.trivial issue per assert statement whose condition is the
literal True, the literal False, or a single-operator equality comparison
whose two operand dumps coincide; an assert of any other truthy literal
constant (such as `assert 1` or a string literal) or of `assert not False`
emits none — the source's truthy-literal branch is unreachable and no
unary-operator case exists — and `assert x == y` with structurally distinct
operands emits none. -/
theorem c2_trivial_detection (minA : Int) (f : FunctionDef) :
    countRule (assertionsAnalyze minA f) "assertions.trivial" = trivCountFunc f ∧
    (∀ ln, checkTrivial (Expr.constant (Const.bool true) ln) = true) ∧
    (∀ ln, checkTrivial (Expr.constant (Const.bool false) ln) = true) ∧
    (∀ n ln, checkTrivial (Expr.constant (Const.int n) ln) = false) ∧
    (∀ s ln, checkTrivial (Expr.constant (Const.str s) ln) = false) ∧
    (∀ e ln, checkTrivial (Expr.unaryOp Unaryop.notOp e ln) = false) ∧
    (∀ x y ln, Expr.dump x = Expr.dump y →
      checkTrivial (Expr.compare x (CmpPairs.cons Cmpop.eq y CmpPairs.nil) ln) = true) ∧
    (∀ x y ln, Expr.dump x ≠ Expr.dump y →
      checkTrivial (Expr.compare x (CmpPairs.cons Cmpop.eq y CmpPairs.nil) ln) = false) := by
  refine ⟨?_, by simp [checkTrivial], by simp [checkTrivial], by simp [checkTrivial],
    by simp [checkTrivial], by simp [checkTrivial],
    by intro x y ln h; simp [checkTrivial, h],
    by intro x y ln h; simp [checkTrivial, h]⟩
  simp only [assertionsAnalyze]
  rw [countRule_append, countRule_map_const, if_pos rfl]
  have htriv := avRun_triv f
  split_ifs <;> simpa [countRule] using htriv

/-- Counterexample to C2 as stated: `assert 1` (an always-truthy literal)
and `assert not False` each emit no assertions.trivial issue. -/
theorem c2_trivial_detection_counterexample :
    countRule (assertionsAnalyze 1 assertIntOneTest) "assertions.trivial" = 0 ∧
    countRule (assertionsAnalyze 1 assertNotFalseTest) "assertions.trivial" = 0 := by
  decide

/-- Witness for C2 at concrete inputs: the tautology count of the
three-self-comparison test, one trivial self-comparison, and one
non-trivial distinct comparison. -/
theorem c2_trivial_detection_witness :
    countRule (assertionsAnalyze 1 (threeAssertTest "test_numbers" 1 2 3 4))
      "assertions.trivial" = trivCountFunc (threeAssertTest "test_numbers" 1 2 3 4) ∧
    checkTrivial (Expr.compare (Expr.name "x" 2)
      (CmpPairs.cons Cmpop.eq (Expr.name "x" 2) CmpPairs.nil) 2) = true ∧
    checkTrivial (Expr.compare (Expr.name "x" 2)
      (CmpPairs.cons Cmpop.eq (Expr.name "y" 2) CmpPairs.nil) 2) = false :=
  ⟨(c2_trivial_detection 1 (threeAssertTest "test_numbers" 1 2 3 4)).1,
   (c2_trivial_detection 1 assertIntOneTest).2.2.2.2.2.2.1 _ _ 2 rfl,
   (c2_trivial_detection 1 assertIntOneTest).2.2.2.2.2.2.2 _ _ 2 (by decide)⟩

set_option maxHeartbeats 4000000 in
/-- C1 (amended): a test whose body is exactly the three unmessaged
assertions `assert 1==1; assert 2==2; assert 3==3` gets exactly one
smells.assertion_roulette issue (Warning, at the test's definition line),
exactly one smells.magic_number issue (3 is not in the allow-list
{0, 1, -1, 2, 100, 1000}), and exactly three assertions.trivial issues
(each assertion compares a value to itself). -/
theorem c1_three_assert_scenario (nm : String) (fl l1 l2 l3 : Nat) :
    countRule (smellsAnalyze {} (threeAssertTest nm fl l1 l2 l3))
      "smells.assertion_roulette" = 1 ∧
    (smellsAnalyze {} (threeAssertTest nm fl l1 l2 l3)).filter
        (fun i => i.rule = "smells.assertion_roulette") =
      [Issue.mk "smells.assertion_roulette" Severity.warning fl] ∧
    countRule (smellsAnalyze {} (threeAssertTest nm fl l1 l2 l3))
      "smells.magic_number" = 1 ∧
    countRule (assertionsAnalyze 1 (threeAssertTest nm fl l1 l2 l3))
      "assertions.trivial" = 3 :=
  ⟨rfl, rfl, rfl, rfl⟩

/-- Counterexample to C1 as stated: the scenario does emit one
smells.magic_number issue (for the literal 3) and three assertions.trivial
issues, where the claim says neither rule fires. -/
theorem c1_three_assert_counterexample :
    countRule (smellsAnalyze {} (threeAssertTest "test_numbers" 1 2 3 4))
      "smells.magic_number" = 1 ∧
    countRule (assertionsAnalyze 1 (threeAssertTest "test_numbers" 1 2 3 4))
      "assertions.trivial" = 3 := by
  decide

/-! ### C9: identity comparisons with literals -/

/-- Conversion from a plain operator/comparator list to CmpPairs. -/
def CmpPairs.ofList : List (Cmpop × Expr) → CmpPairs
  | [] => .nil
  | (op, e) :: tl => .cons op e (CmpPairs.ofList tl)

theorem CmpPairs.ofList_toList (ps : List (Cmpop × Expr)) :
    (CmpPairs.ofList ps).toList = ps := by
  induction ps with
  | nil => rfl
  | cons p tl ih => cases p; simp [CmpPairs.ofList, CmpPairs.toList, ih]

/-- The number of is/is-not operators in a comparison having at least one
adjacent operand that passes the literal test. -/
def countMatchingIsOps (prev : Expr) : List (Cmpop × Expr) → Nat
  | [] => 0
  | (op, cmp) :: rest =>
      (if (op = Cmpop.isCmp ∨ op = Cmpop.isNotCmp) ∧
          (isLiteralForIs prev = true ∨ isLiteralForIs cmp = true) then 1 else 0) +
        countMatchingIsOps cmp rest

/-- Whether an expression is an atomic operand (a name or a constant),
containing no nested comparison of its own. -/
def isAtomicOperand : Expr → Bool
  | .constant _ _ => true
  | .name _ _ => true
  | _ => false

theorem countRule_hardcodedPath (s : String) (ln : Nat) (r : String)
    (h : r ≠ "patterns.hardcoded_path") : countRule (hardcodedPathIssues s ln) r = 0 := by
  unfold hardcodedPathIssues
  split_ifs <;> simp [countRule, Ne.symm h]

theorem pvExpr_atomic_countRule (st : List Issue) (e : Expr)
    (h : isAtomicOperand e = true) :
    countRule (pvExpr st e) "patterns.is_literal" = countRule st "patterns.is_literal" := by
  cases e with
  | constant v ln =>
      cases v <;>
        simp [pvExpr, countRule_append,
          countRule_hardcodedPath _ _ "patterns.is_literal" (by simp)]
  | name id ln => simp [pvExpr]
  | _ => simp [isAtomicOperand] at h

theorem patternsCompareOwn_length (prev : Expr) (pairs : List (Cmpop × Expr)) (ln : Nat) :
    (patternsCompareOwn prev pairs ln).length = countMatchingIsOps prev pairs := by
  induction pairs generalizing prev with
  | nil => simp [patternsCompareOwn, countMatchingIsOps]
  | cons p tl ih =>
      obtain ⟨op, cmp⟩ := p
      simp only [patternsCompareOwn, countMatchingIsOps, List.length_append, ih]
      by_cases hop : op = Cmpop.isCmp ∨ op = Cmpop.isNotCmp
      · by_cases hprev : isLiteralForIs prev = true
        · simp [hop, hprev]
        · by_cases hcmp : isLiteralForIs cmp = true
          · simp [hop, hprev, hcmp]
          · simp [hop, hprev, hcmp]
      · simp [hop]

theorem patternsCompareOwn_mem (prev : Expr) (pairs : List (Cmpop × Expr)) (ln : Nat) :
    ∀ i ∈ patternsCompareOwn prev pairs ln,
      i = Issue.mk "patterns.is_literal" Severity.warning ln := by
  induction pairs generalizing prev with
  | nil => simp [patternsCompareOwn]
  | cons p tl ih =>
      obtain ⟨op, cmp⟩ := p
      intro i hi
      simp only [patternsCompareOwn, List.mem_append] at hi
      rcases hi with hi | hi
      · split_ifs at hi <;> simp_all
      · exact ih cmp i hi

theorem pvPairs_atomic_countRule (ps : List (Cmpop × Expr)) :
    ∀ st, (∀ p ∈ ps, isAtomicOperand p.2 = true) →
      countRule (pvPairs st (CmpPairs.ofList ps)) "patterns.is_literal" =
        countRule st "patterns.is_literal" := by
  induction ps with
  | nil => intro st _; simp [CmpPairs.ofList, pvPairs]
  | cons p tl ih =>
      intro st hat
      obtain ⟨op, cmp⟩ := p
      simp only [CmpPairs.ofList, pvPairs]
      rw [ih _ (fun q hq => hat q (by simp [hq]))]
      exact pvExpr_atomic_countRule st cmp (hat (op, cmp) (by simp))

/-- C9 (amended): for each is/is-not operator of a comparison whose
left-adjacent or right-adjacent operand is a literal int/str constant whose
value is not Python-equal to True, False or None (so the int literals 0 and
1 are excluded along with the bool and None literals), the Anti-Pattern
analyzer emits exactly one patterns.is_literal Warning for that operator —
hence a chained comparison can be reported once per operator, not once per
expression. -/
theorem c9_is_literal_per_operator :
    (∀ (prev : Expr) (pairs : List (Cmpop × Expr)) (ln : Nat),
      (patternsCompareOwn prev pairs ln).length = countMatchingIsOps prev pairs ∧
      ∀ i ∈ patternsCompareOwn prev pairs ln,
        i = Issue.mk "patterns.is_literal" Severity.warning ln) ∧
    (∀ ln, isLiteralForIs (Expr.constant (Const.int 0) ln) = false) ∧
    (∀ ln, isLiteralForIs (Expr.constant (Const.int 1) ln) = false) ∧
    (∀ n ln, n ≠ 0 → n ≠ 1 → isLiteralForIs (Expr.constant (Const.int n) ln) = true) ∧
    (∀ s ln, isLiteralForIs (Expr.constant (Const.str s) ln) = true) ∧
    (∀ b ln, isLiteralForIs (Expr.constant (Const.bool b) ln) = false) ∧
    (∀ ln, isLiteralForIs (Expr.constant Const.none ln) = false) ∧
    (∀ (l : Expr) (ps : List (Cmpop × Expr)) (nm : String) (fl sl cl : Nat),
      isAtomicOperand l = true → (∀ p ∈ ps, isAtomicOperand p.2 = true) →
      countRule (patternsAnalyze
          ⟨nm, [], .cons (.exprStmt (.compare l (CmpPairs.ofList ps) cl) sl) .nil, fl⟩)
        "patterns.is_literal" = countMatchingIsOps l ps) := by
  refine ⟨fun prev pairs ln => ⟨patternsCompareOwn_length prev pairs ln,
      patternsCompareOwn_mem prev pairs ln⟩,
    by simp [isLiteralForIs, Const.pyEqInt],
    by simp [isLiteralForIs, Const.pyEqInt],
    by intro n ln h0 h1; simp [isLiteralForIs, Const.pyEqInt, h0, h1],
    by simp [isLiteralForIs, Const.pyEqInt],
    by intro b ln; cases b <;> simp [isLiteralForIs, Const.pyEqInt],
    by simp [isLiteralForIs],
    ?_⟩
  intro l ps nm fl sl cl hatl hatps
  simp only [patternsAnalyze, List.foldl_nil, pvStmtList, pvStmt, pvExpr,
    CmpPairs.ofList_toList]
  rw [pvPairs_atomic_countRule ps _ hatps, pvExpr_atomic_countRule _ l hatl,
    List.nil_append, countRule_of_all _ _ (fun i hi => by
      rw [patternsCompareOwn_mem l ps cl i hi]),
    patternsCompareOwn_length]

/-- Counterexample to C9 as stated: `x is 1` has a literal numeric operand
other than the literals True/False/None yet emits no patterns.is_literal
issue (1 is Python-equal to True), and the chained comparison
`"a" is "b" is "c"` is one comparison expression yet emits two. -/
theorem c9_is_literal_counterexample :
    countRule (patternsAnalyze isOneTest) "patterns.is_literal" = 0 ∧
    countRule (patternsAnalyze isChainTest) "patterns.is_literal" = 2 := by
  decide

/-- Witness for C9 at concrete inputs. -/
theorem c9_is_literal_witness :
    isLiteralForIs (Expr.constant (Const.int 42) 1) = true ∧
    countRule (patternsAnalyze
        ⟨"test_is", [], .cons (.exprStmt (.compare (.name "x" 2)
          (CmpPairs.ofList [(Cmpop.isCmp, .constant (.int 42) 2)]) 2) 2) .nil, 1⟩)
      "patterns.is_literal" =
      countMatchingIsOps (.name "x" 2) [(Cmpop.isCmp, .constant (.int 42) 2)] :=
  ⟨c9_is_literal_per_operator.2.2.2.1 42 1 (by decide) (by decide),
   c9_is_literal_per_operator.2.2.2.2.2.2.2 (.name "x" 2)
     [(Cmpop.isCmp, .constant (.int 42) 2)] "test_is" 1 2 2 (by decide)
     (by intro p hp; simp at hp; subst hp; decide)⟩

theorem resultCatIssues_empty (cat : String) (r : AnalyzerResult) (h : r.issues = []) :
    resultCatIssues cat r = [] := by
  cases hm : analyzerCategory r.analyzerName <;> simp [resultCatIssues, hm, h]

theorem categoryIssues_all_empty (results : List AnalyzerResult) (cat : String)
    (h : ∀ r ∈ results, r.issues = []) : categoryIssues results cat = [] := by
  induction results with
  | nil => rfl
  | cons r tl ih =>
      rw [categoryIssues_cons, resultCatIssues_empty cat r (h r (by simp)),
        ih (fun q hq => h q (by simp [hq]))]
      rfl

theorem criticalPenalties_all_empty (results : List AnalyzerResult)
    (h : ∀ r ∈ results, r.issues = []) : criticalPenalties results = [] := by
  induction results with
  | nil => rfl
  | cons r tl ih =>
      rw [criticalPenalties_cons, h r (by simp), ih (fun q hq => h q (by simp [hq]))]
      rfl

/-- C4: calculate_score returns total_score 100 and grade "A" whenever the
results hold zero issues (for every total_tests), and whenever total_tests
is 0 (for every results list); and the total_score always lies in
[0, 100]. -/
theorem c4_perfect_and_clamped :
    (∀ (results : List AnalyzerResult) (n : Nat), (∀ r ∈ results, r.issues = []) →
      (calculate_score results n).total_score = 100 ∧
      (calculate_score results n).grade = "A") ∧
    (∀ results : List AnalyzerResult,
      (calculate_score results 0).total_score = 100 ∧
      (calculate_score results 0).grade = "A") ∧
    (∀ (results : List AnalyzerResult) (n : Nat),
      0 ≤ (calculate_score results n).total_score ∧
      (calculate_score results n).total_score ≤ 100) := by
  refine ⟨?_, ?_, ?_⟩
  · intro results n h
    by_cases hn : n = 0
    · subst hn
      exact ⟨rfl, rfl⟩
    · have hcat : ∀ cat, categoryIssues results cat = [] :=
        fun cat => categoryIssues_all_empty results cat h
      have hcrit : criticalPenalties results = [] :=
        criticalPenalties_all_empty results h
      have htot : (calculate_score results n).total_score = 100 := by
        simp only [calculate_score, if_neg hn]
        simp [categoryWeights, hcat, calcCategoryScore, hcrit]
        norm_num [max_def, min_def]
      refine ⟨htot, ?_⟩
      have hgrade : (calculate_score results n).grade = scoreToGrade 100 := by
        simp only [calculate_score, if_neg hn]
        simp [categoryWeights, hcat, calcCategoryScore, hcrit]
        norm_num [scoreToGrade, max_def, min_def]
      rw [hgrade]
      norm_num [scoreToGrade]
  · intro results
    exact ⟨rfl, rfl⟩
  · intro results n
    by_cases hn : n = 0
    · subst hn
      constructor <;> norm_num [calculate_score]
    · simp only [calculate_score, if_neg hn]
      exact ⟨le_max_left 0 _, max_le (by norm_num) (min_le_left _ _)⟩

/-- Witness for C4 at concrete inputs. -/
theorem c4_perfect_and_clamped_witness :
    ((calculate_score [⟨"assertions", []⟩] 5).total_score = 100 ∧
      (calculate_score [⟨"assertions", []⟩] 5).grade = "A") ∧
    ((calculate_score [⟨"assertions",
        [⟨"assertions.missing", Severity.error, 1⟩]⟩] 0).total_score = 100 ∧
      (calculate_score [⟨"assertions",
        [⟨"assertions.missing", Severity.error, 1⟩]⟩] 0).grade = "A") ∧
    (0 ≤ (calculate_score [⟨"assertions",
        [⟨"assertions.missing", Severity.error, 1⟩]⟩] 1).total_score ∧
      (calculate_score [⟨"assertions",
        [⟨"assertions.missing", Severity.error, 1⟩]⟩] 1).total_score ≤ 100) :=
  ⟨c4_perfect_and_clamped.1 [⟨"assertions", []⟩] 5 (by simp),
   c4_perfect_and_clamped.2.1 [⟨"assertions", [⟨"assertions.missing", Severity.error, 1⟩]⟩],
   c4_perfect_and_clamped.2.2 [⟨"assertions", [⟨"assertions.missing", Severity.error, 1⟩]⟩] 1⟩

/-- C5 (amended): for every positive total_tests the breakdown's
categories are exactly the five fixed categories in order; for
total_tests = 0 the early return leaves the categories list empty. -/
theorem c5_category_breakdown :
    (∀ (results : List AnalyzerResult) (n : Nat), 0 < n →
      (calculate_score results n).categories.map (fun c => c.name) =
        ["assertions", "clarity", "isolation", "simplicity", "performance"]) ∧
    (∀ results : List AnalyzerResult, (calculate_score results 0).categories = []) := by
  constructor
  · intro results n hn
    simp only [calculate_score, if_neg hn.ne']
    simp [categoryWeights, calcCategoryScore]
  · intro results
    rfl

/-- Counterexample to C5 as stated: with total_tests = 0 the categories
list is empty, not the five fixed categories. -/
theorem c5_zero_tests_counterexample :
    (calculate_score [] 0).categories = [] ∧
    (calculate_score [] 0).categories.map (fun c => c.name) ≠
      ["assertions", "clarity", "isolation", "simplicity", "performance"] :=
  ⟨rfl, by decide⟩

/-- Witness for C5 at concrete inputs. -/
theorem c5_category_breakdown_witness :
    (calculate_score [] 1).categories.map (fun c => c.name) =
      ["assertions", "clarity", "isolation", "simplicity", "performance"] ∧
    (calculate_score [] 0).categories = [] :=
  ⟨c5_category_breakdown.1 [] 1 (by decide), c5_category_breakdown.2 []⟩

/-! ### C6: error versus warning severity -/

/-- Two calculate_score inputs that are identical except for the severity
of one distinguished issue: the results before, the carrying result (name,
issues around the distinguished one), and the results after. -/
def swapResults (pre post : List AnalyzerResult) (nm : String) (is1 is2 : List Issue)
    (rule : String) (ln : Nat) (sev : Severity) : List AnalyzerResult :=
  pre ++ AnalyzerResult.mk nm (is1 ++ Issue.mk rule sev ln :: is2) :: post

theorem sevSum_cons (i : Issue) (l : List Issue) :
    sevSum (i :: l) = severityPenalty i.severity + sevSum l := by
  simp [sevSum]

theorem categoryIssues_swap (pre post : List AnalyzerResult) (nm : String)
    (is1 is2 : List Issue) (rule : String) (ln : Nat) (sev : Severity)
    (cat c : String) (hcat : analyzerCategory nm = Option.some cat) :
    categoryIssues (swapResults pre post nm is1 is2 rule ln sev) c =
      categoryIssues pre c ++
        ((if cat = c then is1 ++ Issue.mk rule sev ln :: is2 else []) ++
          categoryIssues post c) := by
  unfold swapResults
  rw [categoryIssues_append, categoryIssues_cons]
  simp [resultCatIssues, hcat]

theorem calcCategoryScore_weighted_le (c : String) (w : ℚ) (hw : 0 ≤ w)
    (LE LW : List Issue) (n : Nat) (hE : LE ≠ []) (hW : LW ≠ [])
    (hsum : sevSum LW ≤ sevSum LE) :
    (calcCategoryScore c w LE n).weighted_score ≤
      (calcCategoryScore c w LW n).weighted_score := by
  unfold calcCategoryScore
  simp only
  apply mul_le_mul_of_nonneg_right _ hw
  have hE' : ¬(LE.isEmpty = true) := by simp [hE]
  have hW' : ¬(LW.isEmpty = true) := by simp [hW]
  rw [if_neg hE', if_neg hW']
  apply max_le_max le_rfl
  apply sub_le_sub_left
  split_ifs with hn
  · have hnq : (0 : ℚ) < n := by exact_mod_cast hn
    exact (div_le_div_iff_of_pos_right hnq).mpr hsum
  · exact le_refl 0

theorem calcCategoryScore_weighted_lt (c : String) (w : ℚ) (hw : 0 < w)
    (LE LW : List Issue) (n : Nat) (hn : 0 < n) (hE : LE ≠ []) (hW : LW ≠ [])
    (hsum : sevSum LE = sevSum LW + 10) (hpen : sevSum LW < 100 * n) :
    (calcCategoryScore c w LE n).weighted_score <
      (calcCategoryScore c w LW n).weighted_score := by
  unfold calcCategoryScore
  simp only
  apply mul_lt_mul_of_pos_right _ hw
  have hE' : ¬(LE.isEmpty = true) := by simp [hE]
  have hW' : ¬(LW.isEmpty = true) := by simp [hW]
  rw [if_neg hE', if_neg hW', if_pos hn, if_pos hn]
  have hnq : (0 : ℚ) < n := by exact_mod_cast hn
  have hWpos : 0 < 100 - sevSum LW / n := by
    have : sevSum LW / n < 100 := by
      rw [div_lt_iff₀ hnq]
      linarith
    linarith
  rw [max_eq_right hWpos.le]
  apply max_lt_iff.mpr
  refine ⟨hWpos, ?_⟩
  have : sevSum LW / n < sevSum LE / n := by
    apply (div_lt_div_iff_of_pos_right hnq).mpr
    linarith
  linarith

theorem analyzerCategory_weight (nm cat : String)
    (hcat : analyzerCategory nm = Option.some cat) :
    ∃ w : ℚ, (cat, w) ∈ categoryWeights ∧ 0 < w := by
  unfold analyzerCategory at hcat
  split_ifs at hcat
  · obtain rfl : cat = "assertions" := (Option.some.inj hcat).symm
    exact ⟨3/10, by simp [categoryWeights], by norm_num⟩
  · obtain rfl : cat = "clarity" := (Option.some.inj hcat).symm
    exact ⟨1/4, by simp [categoryWeights], by norm_num⟩
  · obtain rfl : cat = "isolation" := (Option.some.inj hcat).symm
    exact ⟨1/5, by simp [categoryWeights], by norm_num⟩
  · obtain rfl : cat = "isolation" := (Option.some.inj hcat).symm
    exact ⟨1/5, by simp [categoryWeights], by norm_num⟩
  · obtain rfl : cat = "simplicity" := (Option.some.inj hcat).symm
    exact ⟨3/20, by simp [categoryWeights], by norm_num⟩
  · obtain rfl : cat = "simplicity" := (Option.some.inj hcat).symm
    exact ⟨3/20, by simp [categoryWeights], by norm_num⟩
  · obtain rfl : cat = "performance" := (Option.some.inj hcat).symm
    exact ⟨1/10, by simp [categoryWeights], by norm_num⟩
  · obtain rfl : cat = "clarity" := (Option.some.inj hcat).symm
    exact ⟨1/4, by simp [categoryWeights], by norm_num⟩

/-- The total_score of calculate_score with a positive test count, written
out: the clamped weighted category sum minus the critical penalties. -/
theorem calculate_score_total (results : List AnalyzerResult) (n : Nat) (hn : n ≠ 0) :
    (calculate_score results n).total_score =
      max 0 (min 100
        (((categoryWeights.map (fun p => calcCategoryScore p.1 p.2
            (categoryIssues results p.1) n)).map (fun c => c.weighted_score)).sum -
          ((criticalPenalties results).map (fun p => p.2)).sum)) := by
  simp only [calculate_score, if_neg hn]

/-- C6 (amended): swapping the severity of one issue from Warning to Error
strictly lowers total_score provided the issue's analyzer maps to a
category (an unmapped analyzer contributes nothing to the score), the
category's Warning-side penalty has not already driven its raw score to
the 0 clamp, and the Warning-side total has not already been clamped to 0. -/
theorem c6_error_strictly_below_warning (pre post : List AnalyzerResult)
    (nm rule : String) (is1 is2 : List Issue) (ln n : Nat) (cat : String)
    (hn : 0 < n)
    (hcat : analyzerCategory nm = Option.some cat)
    (hpen : sevSum
      (categoryIssues (swapResults pre post nm is1 is2 rule ln Severity.warning) cat)
      < 100 * n)
    (hpos : 0 <
      (calculate_score (swapResults pre post nm is1 is2 rule ln Severity.warning) n).total_score) :
    (calculate_score (swapResults pre post nm is1 is2 rule ln Severity.error) n).total_score <
      (calculate_score (swapResults pre post nm is1 is2 rule ln Severity.warning) n).total_score := by
  have hid : ∀ sev c, categoryIssues (swapResults pre post nm is1 is2 rule ln sev) c =
      categoryIssues pre c ++
        ((if cat = c then is1 ++ Issue.mk rule sev ln :: is2 else []) ++
          categoryIssues post c) :=
    fun sev c => categoryIssues_swap pre post nm is1 is2 rule ln sev cat c hcat
  -- the critical-penalty list ignores severities
  have hP : criticalPenalties (swapResults pre post nm is1 is2 rule ln Severity.error) =
      criticalPenalties (swapResults pre post nm is1 is2 rule ln Severity.warning) := by
    unfold swapResults
    rw [criticalPenalties_append, criticalPenalties_append,
      criticalPenalties_cons, criticalPenalties_cons,
      issuesCrit_append, issuesCrit_append, issuesCrit_cons, issuesCrit_cons]
    rfl
  -- severity sums of the distinguished category differ by exactly 10
  have hsumE : sevSum (categoryIssues
      (swapResults pre post nm is1 is2 rule ln Severity.error) cat) =
      sevSum (categoryIssues
        (swapResults pre post nm is1 is2 rule ln Severity.warning) cat) + 10 := by
    rw [hid, hid, if_pos rfl, if_pos rfl]
    simp only [sevSum_append, sevSum_cons]
    simp [severityPenalty]
    ring
  have hne : ∀ sev, categoryIssues
      (swapResults pre post nm is1 is2 rule ln sev) cat ≠ [] := by
    intro sev
    rw [hid, if_pos rfl]
    simp
  -- the weighted category sums compare strictly
  have hws : ((categoryWeights.map (fun p => calcCategoryScore p.1 p.2
        (categoryIssues (swapResults pre post nm is1 is2 rule ln Severity.error) p.1) n)).map
        (fun c => c.weighted_score)).sum <
      ((categoryWeights.map (fun p => calcCategoryScore p.1 p.2
        (categoryIssues (swapResults pre post nm is1 is2 rule ln Severity.warning) p.1) n)).map
        (fun c => c.weighted_score)).sum := by
    rw [List.map_map, List.map_map]
    apply List.sum_lt_sum
    · intro p hp
      have hw : 0 ≤ p.2 := by fin_cases hp <;> norm_num
      by_cases hc : cat = p.1
      · simp only [Function.comp_apply]
        rw [← hc]
        refine calcCategoryScore_weighted_le cat p.2 hw _ _ n (hne _) (hne _) ?_
        rw [hsumE]
        linarith [sevSum_nonneg (categoryIssues
          (swapResults pre post nm is1 is2 rule ln Severity.warning) cat)]
      · have heq : categoryIssues
            (swapResults pre post nm is1 is2 rule ln Severity.error) p.1 =
            categoryIssues (swapResults pre post nm is1 is2 rule ln Severity.warning) p.1 := by
          rw [hid, hid, if_neg hc, if_neg hc]
        simp only [Function.comp_apply, heq, le_refl]
    · obtain ⟨w, hmem, hwpos⟩ := analyzerCategory_weight nm cat hcat
      refine ⟨(cat, w), hmem, ?_⟩
      simp only [Function.comp_apply]
      exact calcCategoryScore_weighted_lt cat w hwpos _ _ n hn (hne _) (hne _) hsumE hpen
  -- unfold both totals and compare through the clamps
  have hwsW := weightedSum_le_100 (swapResults pre post nm is1 is2 rule ln Severity.warning) n
  have hPn := criticalPenalties_sum_nonneg (swapResults pre post nm is1 is2 rule ln Severity.warning)
  rw [calculate_score_total _ n hn.ne'] at hpos
  rw [calculate_score_total _ n hn.ne', calculate_score_total _ n hn.ne', hP]
  set SW := ((categoryWeights.map (fun p => calcCategoryScore p.1 p.2
    (categoryIssues (swapResults pre post nm is1 is2 rule ln Severity.warning) p.1) n)).map
    (fun c => c.weighted_score)).sum with hSW
  set SE := ((categoryWeights.map (fun p => calcCategoryScore p.1 p.2
    (categoryIssues (swapResults pre post nm is1 is2 rule ln Severity.error) p.1) n)).map
    (fun c => c.weighted_score)).sum with hSE
  set P := (((criticalPenalties
    (swapResults pre post nm is1 is2 rule ln Severity.warning)).map (fun p => p.2)).sum) with hPdef
  have hposW : 0 < SW - P := by
    by_contra hle
    push_neg at hle
    have hz : max 0 (min 100 (SW - P)) = 0 := by
      apply max_eq_left
      exact le_trans (min_le_right _ _) hle
    rw [hz] at hpos
    exact lt_irrefl 0 hpos
  have hminW : min 100 (SW - P) = SW - P := min_eq_right (by linarith)
  have hmaxW : max 0 (min 100 (SW - P)) = SW - P := by
    rw [hminW]
    exact max_eq_right (by linarith)
  rw [hmaxW]
  apply max_lt_iff.mpr
  refine ⟨hposW, ?_⟩
  exact lt_of_le_of_lt (min_le_right _ _) (by linarith)

/-- Counterexample to C6 as stated: an issue of an analyzer outside
ANALYZER_CATEGORIES leaves the score untouched, so the Error and Warning
variants tie at 100 instead of comparing strictly. -/
theorem c6_unmapped_analyzer_counterexample :
    (calculate_score [⟨"custom", [⟨"custom.rule", Severity.error, 1⟩]⟩] 1).total_score =
      (calculate_score [⟨"custom", [⟨"custom.rule", Severity.warning, 1⟩]⟩] 1).total_score := by
  rw [calculate_score_total _ 1 (by decide), calculate_score_total _ 1 (by decide)]
  simp [categoryWeights, categoryIssues, resultCatIssues, calcCategoryScore,
    criticalPenalties, issueCrit, criticalPenalty, analyzerCategory, sevSum,
    severityPenalty, List.foldl]

/-- Witness for C6 at a concrete input: one warning issue of the
assertions analyzer against one test. -/
theorem c6_error_strictly_below_warning_witness :
    (calculate_score
        (swapResults [] [] "assertions" [] [] "assertions.weak" 1 Severity.error) 1).total_score <
      (calculate_score
        (swapResults [] [] "assertions" [] [] "assertions.weak" 1 Severity.warning) 1).total_score :=
  c6_error_strictly_below_warning [] [] "assertions" "assertions.weak" [] [] 1 1 "assertions"
    (by decide) rfl
    (by
      simp [swapResults, categoryIssues_cons, categoryIssues_nil, resultCatIssues,
        analyzerCategory, sevSum, severityPenalty]
      norm_num)
    (by
      rw [calculate_score_total _ 1 (by decide)]
      simp [swapResults, categoryWeights, categoryIssues, resultCatIssues,
        analyzerCategory, calcCategoryScore, criticalPenalties, issuesCrit, issueCrit,
        criticalPenalty, sevSum, severityPenalty, List.foldl]
      norm_num [max_def, min_def])

/-- C10: get_simple_score returns exactly the total_score of
calculate_score on the same inputs. -/
theorem c10_simple_score_refinement (results : List AnalyzerResult) (totalTests : Nat) :
    get_simple_score results totalTests =
      (calculate_score results totalTests).total_score := rfl

end PytestReview
